import Mathlib

/-!
Verification development for the Elgin compiler core (src/astgen.rs,
src/ir.rs, src/analysis.rs, with src/errors.rs and src/types.rs for the
shared data model).  Rust functions are embedded shallowly: the mutable
`IRBuilder` / `Parser` state is threaded explicitly, `Option` results plus
the process-wide error log become the `Res` outcome type, and `panic!` /
`todo!` / `unreachable!` / `.unwrap()` on empty collections become the
distinguished outcome `Res.panicked`.  Recursion over the AST is driven by
an explicit fuel counter (the Rust recursion is not structural: a constant
reference is lowered by splicing the stored AST, which need not shrink).
-/

namespace Elgin

/-- Types, from src/types.rs (`Unknown` is referenced by src/analysis.rs and
is part of the spec's data model, so it is kept as a variant). -/
inductive Ty where
  | IntLiteral | FloatLiteral | StrLiteral
  | I8 | I16 | I32 | I64 | I128
  | N8 | N16 | N32 | N64 | N128
  | F32 | F64 | F128
  | Bool
  | Variable (n : Nat)
  | Unknown
  | Undefined
  | NoReturn
  | Ptr (t : Ty)
  | Array (size : Nat) (t : Ty)
deriving DecidableEq, Repr

/-- Comparison kinds, from src/ir.rs `CompareType`. -/
inductive CompareType where
  | EQ | NE | GT | LT | GE | LE
deriving DecidableEq, Repr

/-- Stack-IR instructions, from src/ir.rs `InstructionType`. -/
inductive InstructionType where
  | Push (s : String)
  | Load (s : String)
  | Store (s : String)
  | Allocate (s : String)
  | Branch (thenId elseId : Nat)
  | Jump (l : Nat)
  | Label (l : Nat)
  | Call (s : String)
  | Return
  | Negate (wrap : Bool)
  | Add (wrap : Bool)
  | Subtract (wrap : Bool)
  | Multiply (wrap : Bool)
  | IntDivide
  | Divide
  | Compare (c : CompareType)
deriving DecidableEq, Repr

/-- An instruction with its type annotation, from src/ir.rs `Instruction`. -/
structure Instruction where
  ins : InstructionType
  typ : Ty
deriving DecidableEq, Repr

/-- Position-annotated wrapper, from src/errors.rs `Span<T>`. -/
structure Span (α : Type) where
  contents : α
  pos : Nat
  len : Nat
deriving DecidableEq, Repr

/-- From src/ir.rs `spanned`. -/
def spanned (ins : Instruction) (pos len : Nat) : Span Instruction :=
  ⟨ins, pos, len⟩

/-- AST nodes, from src/astgen.rs `Node`. -/
inductive Node where
  | Literal (typ : Ty) (value : String)
  | Call (name : String) (args : List (Span Node))
  | InfixOp (op : String) (left right : Span Node)
  | PrefixOp (op : String) (right : Span Node)
  | PostfixOp (op : String) (left : Span Node)
  | IndexOp (object index : Span Node)
  | VariableRef (name : String)
  | IfStatement (condition body else_body : Span Node)
  | WhileStatement (condition body : Span Node)
  | Block (nodes : List (Span Node))
  | VarStatement (name : String) (typ : Ty) (value : Span Node)
  | ConstStatement (name : String) (typ : Ty) (value : Span Node)
  | AssignStatement (name : String) (value : Span Node)
  | IndexedAssignStatement (name : String) (index value : Span Node)
  | ProcStatement (name : String) (args : List String) (arg_types : List Ty)
      (ret_type : Ty) (body : Span Node)
  | ReturnStatement (val : Span Node)
  | UseStatement (path : String)

/-- An IR procedure, from src/ir.rs `IRProc`. -/
structure IRProc where
  name : String
  args : List String
  arg_types : List Ty
  ret_type : Ty
  body : List (Span Instruction)
deriving DecidableEq, Repr

/-- Error kinds, from src/errors.rs `ErrorType`. -/
inductive ErrorType where
  | SyntaxError
  | NameError
deriving DecidableEq, Repr

/-- One record of the process-wide error log, from src/errors.rs `Error`. -/
structure ErrRecord where
  typ : ErrorType
  msg : String
  pos : Nat
  len : Nat
deriving DecidableEq, Repr

/-- A scope: a name-to-type map (src/ir.rs `type Scope = HashMap<String, Type>`),
embedded as an association list whose `insert` overwrites an existing key. -/
def Scope := List (String × Ty)
deriving DecidableEq, Repr

/-- HashMap::insert on a scope: replace the bound value, or add the binding. -/
def scopeInsert (sc : Scope) (name : String) (t : Ty) : Scope :=
  match sc with
  | [] => [(name, t)]
  | (k, v) :: rest =>
      if k = name then (k, t) :: rest else (k, v) :: scopeInsert rest name t

/-- HashMap::get on a scope. -/
def scopeGet (sc : Scope) (name : String) : Option Ty :=
  match sc with
  | [] => none
  | (k, v) :: rest => if k = name then some v else scopeGet rest name

/-- The builder state: the mutable fields of src/ir.rs `IRBuilder` plus the
process-wide error log of src/errors.rs.  `scopes` stores the innermost scope
first (the Rust `Vec` pushes it last and `locate_var` iterates in reverse). -/
structure BState where
  available_type_var : Nat
  available_label_id : Nat
  scopes : List Scope
  procs : List IRProc
  consts : List (String × Span Node)
  log : List ErrRecord

/-- Outcome of a fallible builder step: `ok` returns the updated state (the
Rust methods mutate `self`), `absent` is `None` after logging (state keeps
the log), `panicked` is a `panic!`/`todo!`/`unreachable!`/`unwrap` crash,
`fuelOut` marks exhausted recursion fuel (no Rust counterpart; all theorems
about concrete runs use enough fuel for it not to occur). -/
inductive Res (α : Type) where
  | ok (st : BState) (val : α)
  | absent (st : BState)
  | panicked
  | fuelOut

/-- Sequencing that mirrors Rust's `?` on `Option` with the builder state
threaded through. -/
def Res.bind {α β : Type} : Res α → (BState → α → Res β) → Res β
  | .ok st v, f => f st v
  | .absent st, _ => .absent st
  | .panicked, _ => .panicked
  | .fuelOut, _ => .fuelOut

/-- Append one record to the global error log (src/errors.rs `Logger::log`). -/
def logError (st : BState) (typ : ErrorType) (msg : String) (pos len : Nat) :
    BState :=
  { st with log := st.log ++ [⟨typ, msg, pos, len⟩] }

/-- From src/ir.rs `IRBuilder::next_type_var`. -/
def next_type_var (st : BState) : Nat × BState :=
  (st.available_type_var, { st with available_type_var := st.available_type_var + 1 })

/-- From src/ir.rs `IRBuilder::next_label_id`. -/
def next_label_id (st : BState) : Nat × BState :=
  (st.available_label_id, { st with available_label_id := st.available_label_id + 1 })

/-- The scope-stack lookup inside src/ir.rs `IRBuilder::locate_var`: the Rust
code walks `self.scopes.iter().rev()`, innermost scope first; `BState.scopes`
already stores the innermost scope at the head. -/
def lookupScopes (scopes : List Scope) (name : String) : Option Ty :=
  match scopes with
  | [] => none
  | sc :: rest =>
      match scopeGet sc name with
      | some t => some t
      | none => lookupScopes rest name

/-- From src/ir.rs `IRBuilder::locate_var`: resolve in scope or log a
NameError (at position 0, length 0, as the source does) and return absent. -/
def locate_var (st : BState) (name : String) : Res Ty :=
  match lookupScopes st.scopes name with
  | some t => .ok st t
  | none =>
      .absent (logError st .NameError
        ("Can't find a variable named " ++ name ++ " in the current scope") 0 0)

/-- From src/ir.rs `IRBuilder::locate_proc`: first procedure with the name,
or a logged NameError and absence. -/
def locate_proc (st : BState) (name : String) : Res IRProc :=
  match st.procs.find? (fun p => p.name = name) with
  | some p => .ok st p
  | none =>
      .absent (logError st .NameError
        ("Can't find a procedure named " ++ name ++ " in the current module") 0 0)

/-- Membership test of src/ir.rs `self.consts.contains_key(&name)`. -/
def constsContains (consts : List (String × Span Node)) (name : String) : Bool :=
  (consts.find? (fun kv => kv.1 = name)).isSome

/-- Lookup of src/ir.rs `self.consts[&name]` (the indexing panics when the
key is missing; callers guard with `contains_key`). -/
def constsGet (consts : List (String × Span Node)) (name : String) :
    Option (Span Node) :=
  (consts.find? (fun kv => kv.1 = name)).map (·.2)

/-- HashMap::insert into the constant table (overwrite or add). -/
def constsInsert (consts : List (String × Span Node)) (name : String)
    (v : Span Node) : List (String × Span Node) :=
  match consts with
  | [] => [(name, v)]
  | (k, w) :: rest =>
      if k = name then (k, v) :: rest else (k, w) :: constsInsert rest name v

/-- The result type of one lowering step (`IRResult` in src/ir.rs is
`Option<Vec<Span<Instruction>>>`). -/
abbrev IRRes := Res (List (Span Instruction))

/-- Shape of the recursive `self.node(..)` call that the per-node lowering
methods of src/ir.rs receive; `nodeLower fuel` instantiates it. -/
abbrev NodeFn := BState → Span Node → IRRes

/-- From src/ir.rs `IRBuilder::literal`. -/
def literalF (st : BState) (typ : Ty) (value : String) (pos len : Nat) : IRRes :=
  .ok st [spanned ⟨.Push value, typ⟩ pos len]

/-- The `for arg in args { res.append(&mut self.node(&arg)?); }` loops of
src/ir.rs (`call`, `block`, and the body loop of `proc_statement`). -/
def lowerSeq (node : NodeFn) : BState → List (Span Node) → IRRes
  | st, [] => .ok st []
  | st, n :: rest =>
      (node st n).bind fun st1 i1 =>
        (lowerSeq node st1 rest).bind fun st2 i2 => .ok st2 (i1 ++ i2)

/-- From src/ir.rs `IRBuilder::call`. -/
def callF (node : NodeFn) (st : BState) (name : String)
    (args : List (Span Node)) (pos len : Nat) : IRRes :=
  (locate_proc st name).bind fun st1 procFound =>
    (lowerSeq node st1 args).bind fun st2 argIns =>
      .ok st2 (argIns ++ [spanned ⟨.Call procFound.name, procFound.ret_type⟩ pos len])

/-- The operator table of the `match op.as_str()` in src/ir.rs
`IRBuilder::infix_op`, written as a lookup list in source order. -/
def infixOpTable : List (String × InstructionType) :=
  [("+", .Add false), ("-", .Subtract false), ("*", .Multiply false),
   ("+~", .Add true), ("-~", .Subtract true), ("*~", .Multiply true),
   ("//", .IntDivide), ("/", .Divide),
   ("==", .Compare .EQ), ("!=", .Compare .NE), (">", .Compare .GT),
   ("<", .Compare .LT), (">=", .Compare .GE), ("<=", .Compare .LE)]

/-- The operator dispatch of src/ir.rs `IRBuilder::infix_op` (`_ => todo!()`
for any operator string not in the table). -/
def infixOpKind (op : String) : Option InstructionType :=
  (infixOpTable.find? (fun kv => kv.1 == op)).map (fun kv => kv.2)

/-- From src/ir.rs `IRBuilder::infix_op`. -/
def infixOpF (node : NodeFn) (st : BState) (op : String)
    (left right : Span Node) (pos len : Nat) : IRRes :=
  (node st left).bind fun st1 li =>
    (node st1 right).bind fun st2 ri =>
      match infixOpKind op with
      | none => .panicked
      | some kind =>
          let (v, st3) := next_type_var st2
          .ok st3 (li ++ ri ++ [spanned ⟨kind, .Variable v⟩ pos len])

/-- From src/ir.rs `IRBuilder::prefix_op` (`-` and `-~` only; any other
operator hits `todo!()`). -/
def prefixOpF (node : NodeFn) (st : BState) (op : String)
    (right : Span Node) (pos len : Nat) : IRRes :=
  (node st right).bind fun st1 ri =>
    if op = "-" then
      let (v, st2) := next_type_var st1
      .ok st2 (ri ++ [spanned ⟨.Negate false, .Variable v⟩ pos len])
    else if op = "-~" then
      let (v, st2) := next_type_var st1
      .ok st2 (ri ++ [spanned ⟨.Negate true, .Variable v⟩ pos len])
    else .panicked

/-- From src/ir.rs `IRBuilder::variable_ref`. -/
def variableRefF (node : NodeFn) (st : BState) (name : String)
    (pos len : Nat) : IRRes :=
  if constsContains st.consts name then
    match constsGet st.consts name with
    | some constant => node st constant
    | none => .panicked
  else
    (locate_var st name).bind fun st1 typ =>
      .ok st1 [spanned ⟨.Load name, typ⟩ pos len]

/-- Whether the accumulated result ends in a `Return` instruction: the
`res.last().unwrap().contents.ins != InstructionType::Return` checks of
src/ir.rs `if_statement` / `while_statement` (the `unwrap` panics on an
empty list, kept as a separate outcome by the callers). -/
def lastIsReturn (res : List (Span Instruction)) : Bool :=
  match res.getLast? with
  | some sp => sp.contents.ins == .Return
  | none => false

/-- From src/ir.rs `IRBuilder::if_statement` (the three consecutive
`next_label_id` calls are written out: they draw `available_label_id`,
`+1`, `+2` and leave the counter at `+3`). -/
def ifStatementF (node : NodeFn) (st : BState)
    (condition body else_body : Span Node) (pos len : Nat) : IRRes :=
  let body_label := st.available_label_id
  let else_label := st.available_label_id + 1
  let end_label := st.available_label_id + 2
  let st := { st with available_label_id := st.available_label_id + 3 }
  (node st condition).bind fun st1 condIns =>
    let res := condIns ++
      [spanned ⟨.Branch body_label else_label, .NoReturn⟩ pos len,
       spanned ⟨.Label body_label, .Undefined⟩ pos len]
    (node st1 body).bind fun st2 bodyIns =>
      let res := res ++ bodyIns
      match res.getLast? with
      | none => .panicked
      | some _ =>
        let bodyRet := lastIsReturn res
        let res := res ++
          (if bodyRet then [] else [spanned ⟨.Jump end_label, .Undefined⟩ pos len]) ++
          [spanned ⟨.Label else_label, .Undefined⟩ pos len]
        (node st2 else_body).bind fun st3 elseIns =>
          let res := res ++ elseIns
          match res.getLast? with
          | none => .panicked
          | some _ =>
            let elseRet := lastIsReturn res
            let res := res ++
              (if elseRet then [] else [spanned ⟨.Jump end_label, .Undefined⟩ pos len]) ++
              (if bodyRet && elseRet then []
               else [spanned ⟨.Label end_label, .Undefined⟩ pos len])
            .ok st3 res

/-- From src/ir.rs `IRBuilder::while_statement` (the three consecutive
`next_label_id` calls written out as in `ifStatementF`). -/
def whileStatementF (node : NodeFn) (st : BState)
    (condition body : Span Node) (pos len : Nat) : IRRes :=
  let cond_label := st.available_label_id
  let body_label := st.available_label_id + 1
  let end_label := st.available_label_id + 2
  let st := { st with available_label_id := st.available_label_id + 3 }
  (node st condition).bind fun st1 condIns =>
    let res :=
      [spanned ⟨.Jump cond_label, .Undefined⟩ pos len,
       spanned ⟨.Label cond_label, .Undefined⟩ pos len] ++ condIns ++
      [spanned ⟨.Branch body_label end_label, .NoReturn⟩ pos len,
       spanned ⟨.Label body_label, .Undefined⟩ pos len]
    (node st1 body).bind fun st2 bodyIns =>
      let res := res ++ bodyIns
      match res.getLast? with
      | none => .panicked
      | some _ =>
        let bodyRet := lastIsReturn res
        let res := res ++
          (if bodyRet then [] else [spanned ⟨.Jump cond_label, .Undefined⟩ pos len]) ++
          [spanned ⟨.Label end_label, .Undefined⟩ pos len]
        .ok st2 res

/-- From src/ir.rs `IRBuilder::var_statement` (the binding is inserted into
the innermost scope before the initialiser is lowered; an empty scope stack
panics on `last_mut().unwrap()`). -/
def varStatementF (node : NodeFn) (st : BState) (name : String) (typ : Ty)
    (value : Span Node) (pos len : Nat) : IRRes :=
  match st.scopes with
  | [] => .panicked
  | sc :: rest =>
      let st := { st with scopes := scopeInsert sc name typ :: rest }
      (node st value).bind fun st1 valIns =>
        .ok st1 (valIns ++ [spanned ⟨.Allocate name, typ⟩ pos len])

/-- From src/ir.rs `IRBuilder::assign_statement`. -/
def assignStatementF (node : NodeFn) (st : BState) (name : String)
    (value : Span Node) (pos len : Nat) : IRRes :=
  (node st value).bind fun st1 valIns =>
    (locate_var st1 name).bind fun st2 typ =>
      .ok st2 (valIns ++ [spanned ⟨.Store name, typ⟩ pos len])

/-- From src/ir.rs `IRBuilder::return_statement` (the `Return` instruction
mirrors the type of the previous instruction; `res.last().unwrap()` panics
when the lowered value is empty). -/
def returnStatementF (node : NodeFn) (st : BState) (val : Span Node)
    (pos len : Nat) : IRRes :=
  (node st val).bind fun st1 valIns =>
    match valIns.getLast? with
    | none => .panicked
    | some lastIns =>
        .ok st1 (valIns ++ [spanned ⟨.Return, lastIns.contents.typ⟩ pos len])

/-- From src/ir.rs `IRBuilder::const_statement` (stores the initialising AST
in the constant table; it never fails). -/
def const_statement (st : BState) (name : String) (value : Span Node) :
    Res Unit :=
  .ok { st with consts := constsInsert st.consts name value } ()

/-- From src/ir.rs `IRBuilder::node`: the dispatch over node kinds.
`ConstStatement` inside a body logs a syntax error and returns absent;
`ProcStatement`, `IndexedAssignStatement` and `UseStatement` hit the
`_ => unreachable!()` arm; `PostfixOp` and `IndexOp` reach `todo!()`. -/
def nodeDispatch (node : NodeFn) (st : BState) (sp : Span Node) : IRRes :=
  match sp.contents with
  | .Literal typ value => literalF st typ value sp.pos sp.len
  | .Call name args => callF node st name args sp.pos sp.len
  | .InfixOp op left right => infixOpF node st op left right sp.pos sp.len
  | .PrefixOp op right => prefixOpF node st op right sp.pos sp.len
  | .PostfixOp _ _ => .panicked
  | .IndexOp _ _ => .panicked
  | .VariableRef name => variableRefF node st name sp.pos sp.len
  | .IfStatement c b e => ifStatementF node st c b e sp.pos sp.len
  | .WhileStatement c b => whileStatementF node st c b sp.pos sp.len
  | .Block nodes => lowerSeq node st nodes
  | .VarStatement name typ value => varStatementF node st name typ value sp.pos sp.len
  | .ConstStatement _ _ _ =>
      .absent (logError st .SyntaxError
        "Found const statement not at top level. This feature is NYI." sp.pos sp.len)
  | .AssignStatement name value => assignStatementF node st name value sp.pos sp.len
  | .IndexedAssignStatement _ _ _ => .panicked
  | .ProcStatement _ _ _ _ _ => .panicked
  | .ReturnStatement val => returnStatementF node st val sp.pos sp.len
  | .UseStatement _ => .panicked

/-- Fuel-driven knot of src/ir.rs `IRBuilder::node` (the recursion is not
structural: `variable_ref` lowers the AST stored in the constant table). -/
def nodeLower : Nat → NodeFn
  | 0, _, _ => .fuelOut
  | fuel + 1, st, sp => nodeDispatch (nodeLower fuel) st sp

/-- Parameter insertion loop of src/ir.rs `IRBuilder::proc_statement`
(`arg_types[i]` panics when `arg_types` is shorter than `args`). -/
def insertParams (sc : Scope) : List String → List Ty → Option Scope
  | [], _ => some sc
  | a :: as_, t :: ts => insertParams (scopeInsert sc a t) as_ ts
  | _ :: _, [] => none

/-- From src/ir.rs `IRBuilder::proc_statement`: push a fresh scope, bind the
parameters, lower the block body, and append the `Push "undefined"`/`Return`
epilogue when the declared return type is `Undefined` and the body block is
non-empty; a non-`Block` body hits `panic!()`. -/
def procStatementF (node : NodeFn) (st : BState) (name : String)
    (args : List String) (arg_types : List Ty) (ret_type : Ty)
    (body : Span Node) (pos len : Nat) : Res IRProc :=
  match body.contents with
  | .Block nodes =>
      match insertParams [] args arg_types with
      | none => .panicked
      | some sc =>
          let st := { st with scopes := sc :: st.scopes }
          (lowerSeq node st nodes).bind fun st1 ins =>
            let ins := ins ++
              (if ret_type == Ty.Undefined && !nodes.isEmpty then
                [spanned ⟨.Push "undefined", .Undefined⟩ pos len,
                 spanned ⟨.Return, .Undefined⟩ pos len]
               else [])
            .ok st1 ⟨name, args, arg_types, ret_type, ins⟩
  | _ => .panicked

/-- From src/ir.rs `IRBuilder::build_header`: the built-in
`puts(s: *i8): i32` stub. -/
def build_header (st : BState) : BState :=
  { st with procs := st.procs ++ [⟨"puts", ["s"], [.Ptr .I8], .I32, []⟩] }

/-- Replacement loop after lowering a procedure in src/ir.rs
`IRBuilder::go`: overwrite the first procedure with the same name. -/
def replaceProc (procs : List IRProc) (p : IRProc) : List IRProc :=
  match procs with
  | [] => []
  | q :: rest => if q.name = p.name then p :: rest else q :: replaceProc rest p

/-- Pass 1 of src/ir.rs `IRBuilder::go`: declare procedures and constants;
any other top-level node logs a syntax error and aborts with absence. -/
def irPass1 : BState → List (Span Node) → Res Unit
  | st, [] => .ok st ()
  | st, sp :: rest =>
      match sp.contents with
      | .ConstStatement name _ value =>
          (const_statement st name value).bind fun st1 _ => irPass1 st1 rest
      | .ProcStatement name args arg_types ret_type _ =>
          irPass1
            { st with procs := st.procs ++ [⟨name, args, arg_types, ret_type, []⟩] }
            rest
      | _ =>
          .absent (logError st .SyntaxError
            "A node of this type is not allowed at the top level of a module"
            sp.pos sp.len)

/-- Pass 2 of src/ir.rs `IRBuilder::go`: lower each procedure body (the
fall-through arm is `unreachable!()`). -/
def irPass2 (fuel : Nat) : BState → List (Span Node) → Res Unit
  | st, [] => .ok st ()
  | st, sp :: rest =>
      match sp.contents with
      | .ConstStatement name _ value =>
          (const_statement st name value).bind fun st1 _ => irPass2 fuel st1 rest
      | .ProcStatement name args arg_types ret_type body =>
          (procStatementF (nodeLower fuel) st name args arg_types ret_type body
              sp.pos sp.len).bind fun st1 p =>
            irPass2 fuel { st1 with procs := replaceProc st1.procs p } rest
      | _ => .panicked

/-- From src/ir.rs `IRBuilder::go` (the `build_ir` entry point): header,
declaration pass, lowering pass, and the declared procedures as the value. -/
def irGo (fuel : Nat) (ast : List (Span Node)) (st : BState) :
    Res (List IRProc) :=
  let st := build_header st
  (irPass1 st ast).bind fun st1 _ =>
    (irPass2 fuel st1 ast).bind fun st2 _ => .ok st2 st2.procs

/-- The initial builder state of src/ir.rs `IRBuilder::new` (an empty error
log: the process-wide sink starts empty). -/
def initState : BState := ⟨0, 0, [], [], [], []⟩

/-- A constraint list, from src/analysis.rs `type Constraints = Vec<(Type, Type)>`. -/
abbrev Constraints := List (Ty × Ty)

/-- From src/analysis.rs `IRBuilder::add_constraint`: normalise and append a
constraint (an `Unknown` side becomes a fresh variable; trivial, string- or
undefined-sided pairs are discarded; a `Variable` or literal-tag right side
is swapped to the left).  Threads the type-variable counter. -/
def add_constraint (st : BState) (constraints : Constraints) (t1in t2in : Ty) :
    BState × Constraints :=
  let (t1, st) :=
    if t1in = Ty.Unknown then
      let (v, st) := next_type_var st
      (Ty.Variable v, st)
    else (t1in, st)
  let (t2, st) :=
    if t2in = Ty.Unknown then
      let (v, st) := next_type_var st
      (Ty.Variable v, st)
    else (t2in, st)
  if t1 = t2 then (st, constraints)
  else if t1 = Ty.StrLiteral ∨ t2 = Ty.StrLiteral then (st, constraints)
  else if t1 = Ty.Undefined ∨ t2 = Ty.Undefined then (st, constraints)
  else
    match t2 with
    | Ty.Variable _ => (st, constraints ++ [(t2, t1)])
    | _ =>
        if t2 = Ty.IntLiteral ∨ t2 = Ty.FloatLiteral ∨ t2 = Ty.StrLiteral then
          (st, constraints ++ [(t2, t1)])
        else (st, constraints ++ [(t1, t2)])

/-- The argument-popping loop of the `Call` arm of src/analysis.rs
`IRBuilder::gen_constraints`: for each declared argument type, pop
`stack.remove(stack.len() - arg_count)` (always the element at distance
`arg_count - 1` from the top; an out-of-range index panics) and constrain it.
The stack stores its top element first. -/
def callPops (argc : Nat) (st : BState) (constraints : Constraints)
    (stack : List Ty) : List Ty → Res (Constraints × List Ty)
  | [] => .ok st (constraints, stack)
  | t :: ts =>
      match stack.get? (argc - 1) with
      | none => .panicked
      | some popped =>
          let (st, constraints) := add_constraint st constraints popped t
          callPops argc st constraints (stack.eraseIdx (argc - 1)) ts

/-- The per-instruction loop of src/analysis.rs `IRBuilder::gen_constraints`,
threading the simulated type stack (top first; `stack.pop().unwrap()` on an
empty stack panics) and the constraint list. -/
def genConstraintsAux (proc : IRProc) : BState → Constraints → List Ty →
    List (Span Instruction) → Res (Constraints × List Ty)
  | st, constraints, stack, [] => .ok st (constraints, stack)
  | st, constraints, stack, insSp :: rest =>
      let typ := insSp.contents.typ
      match insSp.contents.ins with
      | .Push _ => genConstraintsAux proc st constraints (typ :: stack) rest
      | .Load var =>
          (locate_var st var).bind fun st1 t =>
            genConstraintsAux proc st1 constraints (t :: stack) rest
      | .Store var =>
          match stack with
          | [] => .panicked
          | t :: stack =>
              let (st, constraints) := add_constraint st constraints typ t
              (locate_var st var).bind fun st1 vt =>
                let (st2, constraints) := add_constraint st1 constraints typ vt
                genConstraintsAux proc st2 constraints stack rest
      | .Allocate var =>
          match stack with
          | [] => .panicked
          | content_type :: stack =>
              match st.scopes with
              | [] => .panicked
              | sc :: scRest =>
                  let st := { st with scopes := scopeInsert sc var typ :: scRest }
                  let (st, constraints) := add_constraint st constraints typ content_type
                  genConstraintsAux proc st constraints stack rest
      | .Branch _ _ =>
          match stack with
          | [] => .panicked
          | t :: stack =>
              let (st, constraints) := add_constraint st constraints t Ty.Bool
              genConstraintsAux proc st constraints stack rest
      | .Jump _ => genConstraintsAux proc st constraints stack rest
      | .Label _ => genConstraintsAux proc st constraints stack rest
      | .Call proc_name =>
          (locate_proc st proc_name).bind fun st1 p =>
            (callPops p.arg_types.length st1 constraints stack p.arg_types).bind
              fun st2 cs =>
                genConstraintsAux proc st2 cs.1 (p.ret_type :: cs.2) rest
      | .Return =>
          match stack with
          | [] => .panicked
          | t :: stack =>
              let (st, constraints) := add_constraint st constraints t proc.ret_type
              genConstraintsAux proc st constraints stack rest
      | .Negate _ =>
          match stack with
          | [] => .panicked
          | t1 :: stack =>
              let (st, constraints) := add_constraint st constraints t1 typ
              genConstraintsAux proc st constraints stack rest
      | .Add _ | .Subtract _ | .Multiply _ | .IntDivide | .Divide =>
          match stack with
          | t1 :: t2 :: stack =>
              let (st, constraints) := add_constraint st constraints t1 t2
              let (st, constraints) := add_constraint st constraints t1 typ
              let (st, constraints) := add_constraint st constraints t2 typ
              genConstraintsAux proc st constraints (typ :: stack) rest
          | _ => .panicked
      | .Compare _ =>
          match stack with
          | t1 :: t2 :: stack =>
              let (st, constraints) := add_constraint st constraints t1 t2
              let (st, constraints) := add_constraint st constraints typ Ty.Bool
              genConstraintsAux proc st constraints (Ty.Bool :: stack) rest
          | _ => .panicked

/-- From src/analysis.rs `IRBuilder::gen_constraints` (the simulated stack is
internal; the method returns the constraint list). -/
def gen_constraints (st : BState) (proc : IRProc) : Res Constraints :=
  (genConstraintsAux proc st [] [] proc.body).bind fun st1 cs => .ok st1 cs.1

/-- From src/analysis.rs `substitute_proc_body`: replace an exact match of
`t1` by `t2` in every instruction's type. -/
def substitute_proc_body (body : List (Span Instruction)) (t1 t2 : Ty) :
    List (Span Instruction) :=
  body.map fun insSp =>
    ⟨⟨insSp.contents.ins, if insSp.contents.typ = t1 then t2 else insSp.contents.typ⟩,
     insSp.pos, insSp.len⟩

/-- From src/analysis.rs `substitute_constraints`: replace either side equal
to `t1` by `t2` in every pair. -/
def substitute_constraints (constraints : Constraints) (t1 t2 : Ty) :
    Constraints :=
  constraints.map fun lr =>
    (if lr.1 = t1 then t2 else lr.1, if lr.2 = t1 then t2 else lr.2)

/-- The inner `for (t1, t2) in constraints` loop of src/analysis.rs
`IRBuilder::solve_constraints`: one sweep over the ORIGINAL constraint list,
rewriting the body and the (never consulted) `new_constraints` accumulator. -/
def solveSweep (original : Constraints)
    (acc : List (Span Instruction) × Constraints) :
    List (Span Instruction) × Constraints :=
  original.foldl
    (fun acc c =>
      (substitute_proc_body acc.1 c.1 c.2, substitute_constraints acc.2 c.1 c.2))
    acc

/-- From src/analysis.rs `IRBuilder::solve_constraints`: three sweeps
(`for _ in 1..4`), each iterating over the original constraint list. -/
def solve_constraints (proc : IRProc) (constraints : Constraints) : IRProc :=
  let acc := solveSweep constraints
    (solveSweep constraints (solveSweep constraints (proc.body, constraints)))
  ⟨proc.name, proc.args, proc.arg_types, proc.ret_type, acc.1⟩

/-- Parameter insertion loop of src/analysis.rs `IRBuilder::analyze`: it
iterates over `arg_types` and indexes `args[i]` (which panics when `args` is
the shorter list — the converse of `proc_statement`). -/
def insertParamsByTypes (sc : Scope) : List String → List Ty → Option Scope
  | _, [] => some sc
  | a :: as_, t :: ts => insertParamsByTypes (scopeInsert sc a t) as_ ts
  | [], _ :: _ => none

/-- The per-procedure loop of src/analysis.rs `IRBuilder::analyze`: push a
scope holding the parameters, generate constraints, solve, collect the new
procedure. -/
def analyzeLoop : BState → List IRProc → Res (List IRProc)
  | st, [] => .ok st []
  | st, proc :: rest =>
      match insertParamsByTypes [] proc.args proc.arg_types with
      | none => .panicked
      | some sc =>
          let st := { st with scopes := sc :: st.scopes }
          (gen_constraints st proc).bind fun st1 constraints =>
            let newProc := solve_constraints proc constraints
            (analyzeLoop st1 rest).bind fun st2 newRest =>
              .ok st2 (newProc :: newRest)

/-- From src/analysis.rs `IRBuilder::analyze`: clear the scope stack, run the
loop over all procedures, and replace `procs` with the new list.  The Rust
loop inserts `args[i] ↦ arg_types[i]` pairwise (`args[i]` would panic were
`args` shorter, mirrored by `insertParams`). -/
def analyze (st : BState) : Res Unit :=
  let st := { st with scopes := [] }
  (analyzeLoop st st.procs).bind fun st1 new_procs =>
    .ok { st1 with procs := new_procs } ()

/-! The parser of src/astgen.rs.  The token set follows §6 of the
specification: it is src/lexer.rs's `Token` enum extended with the
`Return`, `Use` and `DocComment` variants that src/astgen.rs matches on
(the lexer revision shipping them is not among the source files). -/

/-- Tokens (src/lexer.rs `Token`, plus `Return`/`Use`/`DocComment` from the
spec's token list, which src/astgen.rs requires). -/
inductive Token where
  | IntLiteral (s : String)
  | FloatLiteral (s : String)
  | StrLiteral (s : String)
  | Ident (s : String)
  | Op (s : String)
  | Proc | If | Elif | Else | While | Loop | Var | Const | Return | Use
  | LParen | RParen | LBracket | RBracket | LBrace | RBrace
  | Comma | Equals | Colon
  | Newline
  | DocComment (s : String)
  | EOF
deriving DecidableEq, Repr

/-- Parser state: the token slice with a cursor (src/parser.rs `Parser`),
the type-variable counter that src/astgen.rs draws from
(`self.next_type_var()`), and the process-wide error log. -/
structure PState where
  tokens : List (Span Token)
  index : Nat
  available_type_var : Nat
  log : List ErrRecord

/-- Outcome of a parser step, mirroring `Res` over the parser state. -/
inductive PRes (α : Type) where
  | ok (st : PState) (val : α)
  | absent (st : PState)
  | panicked
  | fuelOut

/-- Sequencing of parser steps (Rust `?` on `Option`). -/
def PRes.bind {α β : Type} : PRes α → (PState → α → PRes β) → PRes β
  | .ok st v, f => f st v
  | .absent st, _ => .absent st
  | .panicked, _ => .panicked
  | .fuelOut, _ => .fuelOut

/-- Turn the `unwrap`-style partiality of `peek`/`next` (they take
`tokens.last().unwrap()` for the synthesised EOF span) into an outcome. -/
def PRes.bindTok {α β : Type} : Option α → (α → PRes β) → PRes β
  | none, _ => .panicked
  | some a, k => k a

/-- Append one syntax-error record to the log from parser code. -/
def pLog (st : PState) (typ : ErrorType) (msg : String) (pos len : Nat) :
    PState :=
  { st with log := st.log ++ [⟨typ, msg, pos, len⟩] }

/-- From src/parser.rs `Parser::peek`: the token under the cursor, or a
synthesised EOF span carrying the last token's position (`last().unwrap()`
panics on an empty slice, hence the `Option`). -/
def peekP (st : PState) : Option (Span Token) :=
  match st.tokens.get? st.index with
  | some sp => some sp
  | none => (st.tokens.getLast?).map fun last => ⟨Token.EOF, last.pos, last.len⟩

/-- From src/parser.rs `Parser::next`: increment the cursor first, then read
`tokens[index - 1]`; when the incremented cursor runs past the end the
synthesised EOF span is returned instead (so the very last token of the
slice is never returned by `next`, only by `peek`). -/
def nextP (st : PState) : Option (Span Token × PState) :=
  let st1 : PState := { st with index := st.index + 1 }
  if st1.index ≥ st.tokens.length then
    (st.tokens.getLast?).map fun last => (⟨Token.EOF, last.pos, last.len⟩, st1)
  else
    (st.tokens.get? (st1.index - 1)).map fun sp => (sp, st1)

/-- Modelled from the spec: src/astgen.rs consumes tokens through an
`Option`-returning `ensure_next` (absent from the source files; src/parser.rs
holds its earlier `Result` version) — on a mismatched token it "emit[s] a
syntax error via the error sink and return[s] absent" (§4.1); on a match it
consumes the token. -/
def ensure_nextP (st : PState) (t : Token) : PRes Unit :=
  PRes.bindTok (peekP st) fun sp =>
    if sp.contents = t then
      PRes.bindTok (nextP st) fun nx => .ok nx.2 ()
    else
      .absent (pLog st .SyntaxError "Expected a different token" sp.pos sp.len)

/-- Modelled from the spec: `try_next` (absent from the source files) is the
non-logging probe src/astgen.rs uses — consume the token and succeed when it
matches, otherwise leave the cursor and report `none` without logging. -/
def tryNextP (st : PState) (t : Token) : Option (Bool × PState) :=
  (peekP st).map fun sp =>
    if sp.contents = t then
      match nextP st with
      | some nx => (true, nx.2)
      | none => (true, { st with index := st.index + 1 })
    else (false, st)

/-- Modelled from the spec: `ensure_ident` (absent from the source files;
src/parser.rs holds the `Result` version) — an identifier token is consumed
and its name returned, anything else is a logged syntax error plus absence. -/
def ensure_identP (st : PState) : PRes String :=
  PRes.bindTok (peekP st) fun sp =>
    match sp.contents with
    | .Ident id => PRes.bindTok (nextP st) fun nx => .ok nx.2 id
    | _ => .absent (pLog st .SyntaxError "Expected an identifier" sp.pos sp.len)

/-- The primitive-type table of src/parser.rs `Parser::ensure_type`. -/
def primTy (id : String) : Option Ty :=
  if id = "i8" then some .I8 else if id = "i16" then some .I16
  else if id = "i32" then some .I32 else if id = "i64" then some .I64
  else if id = "i128" then some .I128
  else if id = "n8" then some .N8 else if id = "n16" then some .N16
  else if id = "n32" then some .N32 else if id = "n64" then some .N64
  else if id = "n128" then some .N128
  else if id = "f32" then some .F32 else if id = "f64" then some .F64
  else if id = "f128" then some .F128
  else if id = "bool" then some .Bool
  else none

/-- Modelled from the spec: `ensure_type` in src/astgen.rs's revision (absent
from the source files; src/parser.rs holds the `Result` version without
arrays).  §4.1: identifier → primitive, `*T` → Ptr, `[N]T` → Array with `N`
an integer literal; anything else is a logged expected-type error. -/
def ensure_typeP : Nat → PState → PRes Ty
  | 0, _ => .fuelOut
  | fuel + 1, st =>
      PRes.bindTok (peekP st) fun sp =>
        match sp.contents with
        | .Ident id =>
            match primTy id with
            | some t => PRes.bindTok (nextP st) fun nx => .ok nx.2 t
            | none => .absent (pLog st .SyntaxError "Expected a type" sp.pos sp.len)
        | .Op o =>
            if o = "*" then
              PRes.bindTok (nextP st) fun nx =>
                (ensure_typeP fuel nx.2).bind fun st1 t => .ok st1 (.Ptr t)
            else .absent (pLog st .SyntaxError "Expected a type" sp.pos sp.len)
        | .LBracket =>
            PRes.bindTok (nextP st) fun nx =>
              PRes.bindTok (peekP nx.2) fun szSp =>
                match szSp.contents with
                | .IntLiteral s =>
                    match s.toNat? with
                    | some n =>
                        PRes.bindTok (nextP nx.2) fun nx2 =>
                          (ensure_nextP nx2.2 .RBracket).bind fun st1 _ =>
                            (ensure_typeP fuel st1).bind fun st2 t =>
                              .ok st2 (.Array n t)
                    | none =>
                        .absent (pLog nx.2 .SyntaxError "Expected a type"
                          szSp.pos szSp.len)
                | _ =>
                    .absent (pLog nx.2 .SyntaxError "Expected a type"
                      szSp.pos szSp.len)
        | _ => .absent (pLog st .SyntaxError "Expected a type" sp.pos sp.len)

/-- From src/astgen.rs `Parser::next_type_var` usage (`Type::Variable(self.next_type_var())`). -/
def pNextTypeVar (st : PState) : Nat × PState :=
  (st.available_type_var, { st with available_type_var := st.available_type_var + 1 })

/-- From src/astgen.rs `prefix_binding_power` (any other operator string hits
`unreachable!`, reported as `none` here and turned into a panic by `expr`). -/
def prefix_binding_power (op : String) : Option Nat :=
  if op = "!" then some 8
  else if op = "+" ∨ op = "-" then some 9
  else none

/-- From src/astgen.rs `postfix_binding_power`. -/
def postfix_binding_power (op : String) : Option Nat :=
  if op = "[" then some 11 else none

/-- From src/astgen.rs `infix_binding_power` (src/astgen.rs lines 507-514:
comparisons (3,4), `+` `-` (5,6), `*` `/` (7,8); every other operator —
including `//` — yields `None`). -/
def infix_binding_power (op : String) : Option (Nat × Nat) :=
  if op = ">" ∨ op = "<" ∨ op = ">=" ∨ op = "<=" ∨ op = "==" ∨ op = "!=" then
    some (3, 4)
  else if op = "+" ∨ op = "-" then some (5, 6)
  else if op = "*" ∨ op = "/" then some (7, 8)
  else none

/-- The mutually recursive parsing obligations of src/astgen.rs, driven by
one fuel-recursive interpreter `parseStep`.  `expr`/`exprLoop` split
`Parser::expr` into its head and its Pratt loop; `goLoop`, `blockLoop` and
`callArgs` are the source's in-method `loop`/`while` constructs, carrying
their accumulators. -/
inductive PTask where
  | expr (min_bp : Nat)
  | exprLoop (min_bp : Nat) (left : Span Node)
  | callArgs (name : String) (pos len : Nat) (acc : List (Span Node))
  | stmt
  | ifStmt (ensure_if : Bool)
  | whileStmt
  | loopStmt
  | blockStmt
  | blockLoop (acc : List (Span Node))
  | varStmt
  | assignStmt
  | constStmt
  | procStmt
  | returnStmt
  | useStmt
  | goLoop (acc : List (Span Node))

/-- Results of a parsing obligation: a node, or a node list (for `goLoop`,
`blockLoop` and `callArgs`). -/
inductive PVal where
  | one (n : Span Node)
  | many (l : List (Span Node))

/-- Read a `PVal` as a list (only `many` producers are read this way). -/
def PVal.asMany : PVal → List (Span Node)
  | .many l => l
  | .one n => [n]

/-- Read a `PVal` as a single node (only `one` producers are read this way). -/
def PVal.asOne : PVal → Span Node
  | .one n => n
  | .many _ => ⟨.Block [], 0, 0⟩

/-- Parameter-list loop of src/astgen.rs `Parser::proc_statement`
(`while peek != RParen { ident, colon, type, comma? }`). -/
def paramLoop : Nat → PState → List String → List Ty →
    PRes (List String × List Ty)
  | 0, _, _, _ => .fuelOut
  | fuel + 1, st, args, arg_types =>
      PRes.bindTok (peekP st) fun sp =>
        if sp.contents = Token.RParen then .ok st (args, arg_types)
        else
          (ensure_identP st).bind fun st1 a =>
            (ensure_nextP st1 .Colon).bind fun st2 _ =>
              (ensure_typeP fuel st2).bind fun st3 t =>
                PRes.bindTok (peekP st3) fun sp2 =>
                  if sp2.contents ≠ Token.Comma then
                    .ok st3 (args ++ [a], arg_types ++ [t])
                  else
                    (ensure_nextP st3 .Comma).bind fun st4 _ =>
                      paramLoop fuel st4 (args ++ [a]) (arg_types ++ [t])

/-- Path loop of src/astgen.rs `Parser::use_statement`. -/
def usePathLoop : Nat → PState → String → PRes String
  | 0, _, _ => .fuelOut
  | fuel + 1, st, path =>
      (ensure_identP st).bind fun st1 id =>
        let path := path ++ id
        PRes.bindTok (peekP st1) fun sp =>
          match sp.contents with
          | .Op op =>
              if op = "." then
                PRes.bindTok (nextP st1) fun nx =>
                  usePathLoop fuel nx.2 (path ++ ".")
              else .ok st1 path
          | _ => .ok st1 path

/-- The interpreter for src/astgen.rs's mutually recursive parser methods.
Each arm is a direct transcription of the corresponding method; `panicked`
marks the source's `panic!("Bad token: ..")` and `unreachable!` arms. -/
def parseStep : Nat → PState → PTask → PRes PVal
  | 0, _, _ => .fuelOut
  | fuel + 1, st, task =>
      match task with
      | .expr min_bp =>
          PRes.bindTok (nextP st) fun nx =>
            let sp := nx.1
            let st := nx.2
            match sp.contents with
            | .Ident id =>
                PRes.bindTok (peekP st) fun la =>
                  if la.contents = Token.LParen then
                    PRes.bindTok (nextP st) fun nx2 =>
                      (parseStep fuel nx2.2 (.callArgs id sp.pos sp.len [])).bind
                        fun st1 v =>
                          (ensure_nextP st1 .RParen).bind fun st2 _ =>
                            parseStep fuel st2
                              (.exprLoop min_bp ⟨.Call id v.asMany, sp.pos, sp.len⟩)
                  else
                    parseStep fuel st
                      (.exprLoop min_bp ⟨.VariableRef id, sp.pos, sp.len⟩)
            | .IntLiteral i =>
                parseStep fuel st
                  (.exprLoop min_bp ⟨.Literal .IntLiteral i, sp.pos, sp.len⟩)
            | .FloatLiteral x =>
                parseStep fuel st
                  (.exprLoop min_bp ⟨.Literal .FloatLiteral x, sp.pos, sp.len⟩)
            | .StrLiteral s =>
                parseStep fuel st
                  (.exprLoop min_bp ⟨.Literal .StrLiteral s, sp.pos, sp.len⟩)
            | .LParen =>
                (parseStep fuel st (.expr 0)).bind fun st1 v =>
                  (ensure_nextP st1 .RParen).bind fun st2 _ =>
                    parseStep fuel st2 (.exprLoop min_bp v.asOne)
            | .Op op =>
                match prefix_binding_power op with
                | none => .panicked
                | some right_bp =>
                    (parseStep fuel st (.expr right_bp)).bind fun st1 v =>
                      parseStep fuel st1
                        (.exprLoop min_bp ⟨.PrefixOp op v.asOne, sp.pos, sp.len⟩)
            | .EOF =>
                .absent (pLog st .SyntaxError
                  "Encountered the end of the file while parsing" sp.pos sp.len)
            | _ => .panicked
      | .exprLoop min_bp left =>
          PRes.bindTok (peekP st) fun sp =>
            let op? : Option (Option String) :=
              match sp.contents with
              | .EOF | .Newline | .RParen | .RBracket | .Comma
              | .LBrace | .RBrace => some none
              | .Op op => some (some op)
              | .LBracket => some (some "[")
              | _ => none
            match op? with
            | none => .panicked
            | some none => .ok st (.one left)
            | some (some op) =>
                match postfix_binding_power op with
                | some left_bp =>
                    if left_bp < min_bp then .ok st (.one left)
                    else
                      PRes.bindTok (nextP st) fun nx =>
                        if op = "[" then
                          (parseStep fuel nx.2 (.expr 0)).bind fun st1 v =>
                            (ensure_nextP st1 .RBracket).bind fun st2 _ =>
                              parseStep fuel st2
                                (.exprLoop min_bp ⟨.IndexOp left v.asOne, 0, 0⟩)
                        else
                          parseStep fuel nx.2
                            (.exprLoop min_bp ⟨.PostfixOp op left, 0, 0⟩)
                | none =>
                    match infix_binding_power op with
                    | some (left_bp, right_bp) =>
                        if left_bp < min_bp then .ok st (.one left)
                        else
                          PRes.bindTok (nextP st) fun nx =>
                            (parseStep fuel nx.2 (.expr right_bp)).bind fun st1 v =>
                              parseStep fuel st1
                                (.exprLoop min_bp
                                  ⟨.InfixOp op left v.asOne, 0, 0⟩)
                    | none => .ok st (.one left)
      | .callArgs name pos len acc =>
          PRes.bindTok (peekP st) fun sp =>
            if sp.contents = Token.RParen then .ok st (.many acc)
            else
              (parseStep fuel st (.expr 0)).bind fun st1 v =>
                let acc := acc ++ [v.asOne]
                PRes.bindTok (peekP st1) fun sp2 =>
                  if sp2.contents ≠ Token.Comma then .ok st1 (.many acc)
                  else
                    (ensure_nextP st1 .Comma).bind fun st2 _ =>
                      parseStep fuel st2 (.callArgs name pos len acc)
      | .stmt =>
          PRes.bindTok (peekP st) fun sp =>
            match sp.contents with
            | .If => parseStep fuel st (.ifStmt true)
            | .While => parseStep fuel st .whileStmt
            | .Loop => parseStep fuel st .loopStmt
            | .Var => parseStep fuel st .varStmt
            | .Const => parseStep fuel st .constStmt
            | .Proc => parseStep fuel st .procStmt
            | .Return => parseStep fuel st .returnStmt
            | .Use => parseStep fuel st .useStmt
            | _ =>
                match parseStep fuel st .assignStmt with
                | .absent st1 => parseStep fuel st1 (.expr 0)
                | r => r
      | .ifStmt ensure_if =>
          ((if ensure_if then ensure_nextP st .If else .ok st ())).bind fun st0 _ =>
            (parseStep fuel st0 (.expr 0)).bind fun st1 condition =>
              (parseStep fuel st1 .blockStmt).bind fun st2 body =>
                PRes.bindTok (peekP st2) fun sp =>
                  if sp.contents = Token.Elif then
                    (ensure_nextP st2 .Elif).bind fun st3 _ =>
                      (parseStep fuel st3 (.ifStmt false)).bind fun st4 els =>
                        .ok st4 (.one ⟨.IfStatement condition.asOne body.asOne
                          els.asOne, 0, 0⟩)
                  else if sp.contents = Token.Else then
                    (ensure_nextP st2 .Else).bind fun st3 _ =>
                      (parseStep fuel st3 .blockStmt).bind fun st4 els =>
                        .ok st4 (.one ⟨.IfStatement condition.asOne body.asOne
                          els.asOne, 0, 0⟩)
                  else
                    .ok st2 (.one ⟨.IfStatement condition.asOne body.asOne
                      ⟨.Block [⟨.Literal .Undefined "undefined", 0, 0⟩], 0, 0⟩,
                      0, 0⟩)
      | .whileStmt =>
          (ensure_nextP st .While).bind fun st0 _ =>
            (parseStep fuel st0 (.expr 0)).bind fun st1 condition =>
              (parseStep fuel st1 .blockStmt).bind fun st2 body =>
                .ok st2 (.one ⟨.WhileStatement condition.asOne body.asOne, 0, 0⟩)
      | .loopStmt =>
          (ensure_nextP st .Loop).bind fun st0 _ =>
            (parseStep fuel st0 .blockStmt).bind fun st1 body =>
              .ok st1 (.one ⟨.WhileStatement ⟨.Literal .Bool "true", 0, 0⟩
                body.asOne, 0, 0⟩)
      | .blockStmt =>
          (ensure_nextP st .LBrace).bind fun st0 _ =>
            (parseStep fuel st0 (.blockLoop [])).bind fun st1 v =>
              .ok st1 (.one ⟨.Block v.asMany, 0, 0⟩)
      | .blockLoop acc =>
          PRes.bindTok (tryNextP st .Newline) fun tn =>
            (parseStep fuel tn.2 .stmt).bind fun st1 v =>
              let acc := acc ++ [v.asOne]
              PRes.bindTok (tryNextP st1 .Newline) fun tn2 =>
                if tn2.1 = false then
                  (ensure_nextP tn2.2 .RBrace).bind fun st2 _ => .ok st2 (.many acc)
                else
                  PRes.bindTok (peekP tn2.2) fun sp =>
                    if sp.contents = Token.RBrace then
                      (ensure_nextP tn2.2 .RBrace).bind fun st2 _ =>
                        .ok st2 (.many acc)
                    else parseStep fuel tn2.2 (.blockLoop acc)
      | .varStmt =>
          (ensure_nextP st .Var).bind fun st0 _ =>
            (ensure_identP st0).bind fun st1 name =>
              PRes.bindTok (tryNextP st1 .Colon) fun tc =>
                (if tc.1 then ensure_typeP fuel tc.2
                 else
                   let (v, st2) := pNextTypeVar tc.2
                   .ok st2 (.Variable v)).bind fun st3 typ =>
                  PRes.bindTok (peekP st3) fun sp =>
                    (if sp.contents = Token.Equals then
                      (ensure_nextP st3 .Equals).bind fun st4 _ =>
                        (parseStep fuel st4 (.expr 0)).bind fun st5 v =>
                          .ok st5 v.asOne
                     else
                      .ok st3 ⟨.Literal .Undefined "undefined", 0, 0⟩).bind
                      fun st6 value =>
                        .ok st6 (.one ⟨.VarStatement name typ value, 0, 0⟩)
      | .assignStmt =>
          (ensure_identP st).bind fun st1 name =>
            PRes.bindTok (tryNextP st1 .Equals) fun te =>
              if te.1 = false then
                (ensure_nextP te.2 .LBracket).bind fun st2 _ =>
                  (parseStep fuel st2 (.expr 0)).bind fun st3 index =>
                    (ensure_nextP st3 .RBracket).bind fun st4 _ =>
                      (ensure_nextP st4 .Equals).bind fun st5 _ =>
                        (parseStep fuel st5 (.expr 0)).bind fun st6 value =>
                          .ok st6 (.one ⟨.IndexedAssignStatement name
                            index.asOne value.asOne, 0, 0⟩)
              else
                (parseStep fuel te.2 (.expr 0)).bind fun st2 value =>
                  .ok st2 (.one ⟨.AssignStatement name value.asOne, 0, 0⟩)
      | .constStmt =>
          (ensure_nextP st .Const).bind fun st0 _ =>
            (ensure_identP st0).bind fun st1 name =>
              PRes.bindTok (tryNextP st1 .Colon) fun tc =>
                (if tc.1 then ensure_typeP fuel tc.2
                 else
                   let (v, st2) := pNextTypeVar tc.2
                   .ok st2 (.Variable v)).bind fun st3 typ =>
                  (ensure_nextP st3 .Equals).bind fun st4 _ =>
                    (parseStep fuel st4 (.expr 0)).bind fun st5 value =>
                      .ok st5 (.one ⟨.ConstStatement name typ value.asOne, 0, 0⟩)
      | .procStmt =>
          (ensure_nextP st .Proc).bind fun st0 _ =>
            (ensure_identP st0).bind fun st1 name =>
              (ensure_nextP st1 .LParen).bind fun st2 _ =>
                (paramLoop fuel st2 [] []).bind fun st3 params =>
                  (ensure_nextP st3 .RParen).bind fun st4 _ =>
                    PRes.bindTok (tryNextP st4 .Colon) fun tc =>
                      (if tc.1 then ensure_typeP fuel tc.2
                       else .ok tc.2 Ty.Undefined).bind fun st5 ret_type =>
                        PRes.bindTok (peekP st5) fun sp =>
                          (if sp.contents = Token.LBrace then
                            (parseStep fuel st5 .blockStmt).bind fun st6 v =>
                              .ok st6 v.asOne
                           else .ok st5 ⟨.Block [], 0, 0⟩).bind fun st7 body =>
                            .ok st7 (.one ⟨.ProcStatement name params.1 params.2
                              ret_type body, 0, 0⟩)
      | .returnStmt =>
          (ensure_nextP st .Return).bind fun st0 _ =>
            (parseStep fuel st0 (.expr 0)).bind fun st1 v =>
              .ok st1 (.one ⟨.ReturnStatement v.asOne, 0, 0⟩)
      | .useStmt =>
          (ensure_nextP st .Use).bind fun st0 _ =>
            (usePathLoop fuel st0 "").bind fun st1 path =>
              .ok st1 (.one ⟨.UseStatement path, 0, 0⟩)
      | .goLoop acc =>
          PRes.bindTok (peekP st) fun sp =>
            (match sp.contents with
             | .DocComment _ =>
                 PRes.bindTok (nextP st) fun nx => .ok nx.2 acc
             | .Newline =>
                 PRes.bindTok (nextP st) fun nx => .ok nx.2 acc
             | _ =>
                 (parseStep fuel st .stmt).bind fun st1 v =>
                   (ensure_nextP st1 .Newline).bind fun st2 _ =>
                     .ok st2 (acc ++ [v.asOne]) :
              PRes (List (Span Node))).bind fun st3 acc1 =>
              PRes.bindTok (peekP st3) fun sp2 =>
                if sp2.contents = Token.EOF then .ok st3 (.many acc1)
                else parseStep fuel st3 (.goLoop acc1)

/-- From src/astgen.rs `Parser::expr`. -/
def exprP (fuel : Nat) (st : PState) (min_bp : Nat) : PRes (Span Node) :=
  (parseStep fuel st (.expr min_bp)).bind fun st1 v => .ok st1 v.asOne

/-- From src/astgen.rs `Parser::statement`. -/
def statementP (fuel : Nat) (st : PState) : PRes (Span Node) :=
  (parseStep fuel st .stmt).bind fun st1 v => .ok st1 v.asOne

/-- From src/astgen.rs `Parser::go` (the `parse` entry point). -/
def parserGo (fuel : Nat) (st : PState) : PRes (List (Span Node)) :=
  (parseStep fuel st (.goLoop [])).bind fun st1 v => .ok st1 v.asMany

/-! Observations projecting outcomes into decidable-equality types, and the
concrete programs the claims are evaluated on. -/

/-- Whether a builder outcome is a panic. -/
def Res.isPanicked {α : Type} : Res α → Bool
  | .panicked => true
  | _ => false

/-- Whether a parser outcome is a panic. -/
def PRes.isPanicked {α : Type} : PRes α → Bool
  | .panicked => true
  | _ => false

/-- The names of the procedures of a `build_ir` outcome (empty if not ok). -/
def resProcNames (r : Res (List IRProc)) : List String :=
  match r with
  | .ok _ procs => procs.map fun p => p.name
  | _ => []

/-- The instruction kinds of each procedure body of a `build_ir` outcome. -/
def resBodyIns (r : Res (List IRProc)) : List (List InstructionType) :=
  match r with
  | .ok _ procs => procs.map fun p => p.body.map fun i => i.contents.ins
  | _ => []

/-- The instruction types of each procedure body of a `build_ir` outcome. -/
def resBodyTys (r : Res (List IRProc)) : List (List Ty) :=
  match r with
  | .ok _ procs => procs.map fun p => p.body.map fun i => i.contents.typ
  | _ => []

/-- The length of the error log after an ok or absent outcome. -/
def resLogLen {α : Type} : Res α → Nat
  | .ok st _ => st.log.length
  | .absent st => st.log.length
  | _ => 0

/-- The scope-stack depth after an ok outcome. -/
def resScopesLen {α : Type} : Res α → Nat
  | .ok st _ => st.scopes.length
  | _ => 0

/-- The instruction types of each procedure body after `analyze` (empty if
the analysis did not finish). -/
def analyzedBodyTys (st : BState) : List (List Ty) :=
  match analyze st with
  | .ok st1 _ => st1.procs.map fun p => p.body.map fun i => i.contents.typ
  | _ => []

/-- The instruction types of every procedure after running `build_ir` and
then `analyze` on a program, from a fresh builder. -/
def irGoThenAnalyzeTys (ast : List (Span Node)) : List (List Ty) :=
  match irGo 20 ast initState with
  | .ok st _ => analyzedBodyTys st
  | _ => []

/-- Whether `analyze`, run after a successful `build_ir`, panics. -/
def irGoThenAnalyzePanics (ast : List (Span Node)) : Bool :=
  match irGo 20 ast initState with
  | .ok st _ => (analyze st).isPanicked
  | _ => false

/-- Claim C1's failing program: a procedure whose body is the index
expression `1[2]` — `Parser::expr` parses index operations, but
`IRBuilder::index_op` is `todo!()`. -/
def idxAst : List (Span Node) :=
  [⟨.ProcStatement "f" [] [] .Undefined
      ⟨.Block [⟨.IndexOp ⟨.Literal .IntLiteral "1", 0, 0⟩
        ⟨.Literal .IntLiteral "2", 0, 0⟩, 0, 0⟩], 0, 0⟩, 0, 0⟩]

/-- Claim C2's failing procedure: the IR of `proc f(): i64 { return -3 }`
(`Push "3" :: IntLiteral`, `Negate(false) :: $0`, `Return :: $0`). -/
def negProc : IRProc :=
  ⟨"f", [], [], .I64,
   [spanned ⟨.Push "3", .IntLiteral⟩ 0 0,
    spanned ⟨.Negate false, .Variable 0⟩ 0 0,
    spanned ⟨.Return, .Variable 0⟩ 0 0]⟩

/-- Claim C3's input: a body block holding one `return undefined` statement,
so the lowered body already ends in `Return`. -/
def retBlock : Span Node :=
  ⟨.Block [⟨.ReturnStatement ⟨.Literal .Undefined "undefined", 0, 0⟩, 5, 7⟩], 1, 2⟩

/-- Claim C2's program as an AST: `proc f(): i64 { return -3 }`. -/
def negAst : List (Span Node) :=
  [⟨.ProcStatement "f" [] [] .I64
    ⟨.Block [⟨.ReturnStatement
      ⟨.PrefixOp "-" ⟨.Literal .IntLiteral "3", 0, 0⟩, 0, 0⟩, 0, 0⟩], 0, 0⟩, 0, 0⟩]

/-- Claim C4's counterexample program: `proc f() { 3 }` — the `IntLiteral`
on `Push "3"` is constrained by nothing and survives solving. -/
def c4LitAst : List (Span Node) :=
  [⟨.ProcStatement "f" [] [] .Undefined
    ⟨.Block [⟨.Literal .IntLiteral "3", 0, 0⟩], 0, 0⟩, 0, 0⟩]

/-- Scenario S4's program: `proc f(): i64 { return 3 }`. -/
def s4Ast : List (Span Node) :=
  [⟨.ProcStatement "f" [] [] .I64
    ⟨.Block [⟨.ReturnStatement ⟨.Literal .IntLiteral "3", 0, 0⟩, 0, 0⟩], 0, 0⟩, 0, 0⟩]

/-- Claim C5's procedure: one instruction typed with the inference variable
`$0`. -/
def c5Proc : IRProc :=
  ⟨"f", [], [], .I32, [spanned ⟨.Push "x", .Variable 0⟩ 0 0]⟩

/-- Claim C5's constraint list: `$0 ≡ i32` followed by `$0 ≡ i64`. -/
def c5Constraints : Constraints :=
  [(.Variable 0, .I32), (.Variable 0, .I64)]

/-- Claim C9's failing input: the token stream of the statement `a // b`. -/
def divToks : List (Span Token) :=
  [⟨.Ident "a", 0, 1⟩, ⟨.Op "//", 2, 2⟩, ⟨.Ident "b", 5, 1⟩,
   ⟨.Newline, 6, 1⟩, ⟨.EOF, 7, 0⟩]

/-- Claim C10's program: `proc a(x: i32) {}` followed by
`proc b() { return x }` — `x` is bound only in `a`'s scope. -/
def leakAst : List (Span Node) :=
  [⟨.ProcStatement "a" ["x"] [.I32] .Undefined ⟨.Block [], 0, 0⟩, 0, 0⟩,
   ⟨.ProcStatement "b" [] [] .Undefined
     ⟨.Block [⟨.ReturnStatement ⟨.VariableRef "x", 0, 0⟩, 0, 0⟩], 0, 0⟩, 0, 0⟩]

/-- The solver of claim C5's amended statement: identical to
`solve_constraints` except that the dead `new_constraints` accumulator is
not computed at all — each sweep folds the original list over the body
alone. -/
def solveOriginalOnly (proc : IRProc) (constraints : Constraints) : IRProc :=
  let sweep : List (Span Instruction) → List (Span Instruction) := fun b =>
    constraints.foldl (fun b c => substitute_proc_body b c.1 c.2) b
  ⟨proc.name, proc.args, proc.arg_types, proc.ret_type,
   sweep (sweep (sweep proc.body))⟩

/-- The label-freshness and stability invariant of one lowering step: the
label counter only grows, the scope stack never shrinks, the constant table
is untouched, every emitted `Label` id was allocated by this step, and no
`Load` of a constant-table name is emitted. -/
def Inv (st st' : BState) (res : List (Span Instruction)) : Prop :=
  st.available_label_id ≤ st'.available_label_id ∧
  st.scopes.length ≤ st'.scopes.length ∧
  st'.consts = st.consts ∧
  (∀ sp ∈ res, ∀ l, sp.contents.ins = .Label l →
    st.available_label_id ≤ l ∧ l < st'.available_label_id) ∧
  (∀ sp ∈ res, ∀ nm, constsContains st.consts nm = true →
    sp.contents.ins ≠ .Load nm)

/-- A lowering function every successful run of which satisfies `Inv`. -/
def GoodNode (node : NodeFn) : Prop :=
  ∀ st sp st' res, node st sp = .ok st' res → Inv st st' res

/-! Theorems. -/

@[simp] theorem Res.bind_ok {α β : Type} (st : BState) (v : α)
    (f : BState → α → Res β) : Res.bind (.ok st v) f = f st v := rfl

@[simp] theorem Res.bind_absent {α β : Type} (st : BState)
    (f : BState → α → Res β) : Res.bind (.absent st) f = .absent st := rfl

@[simp] theorem Res.bind_panicked {α β : Type}
    (f : BState → α → Res β) : Res.bind Res.panicked f = .panicked := rfl

@[simp] theorem Res.bind_fuelOut {α β : Type}
    (f : BState → α → Res β) : Res.bind Res.fuelOut f = .fuelOut := rfl

@[simp] theorem PRes.pbind_ok {α β : Type} (st : PState) (v : α)
    (f : PState → α → PRes β) : PRes.bind (.ok st v) f = f st v := rfl

@[simp] theorem PRes.pbind_absent {α β : Type} (st : PState)
    (f : PState → α → PRes β) : PRes.bind (.absent st) f = .absent st := rfl

@[simp] theorem PRes.pbind_panicked {α β : Type}
    (f : PState → α → PRes β) : PRes.bind PRes.panicked f = .panicked := rfl

@[simp] theorem PRes.pbind_fuelOut {α β : Type}
    (f : PState → α → PRes β) : PRes.bind PRes.fuelOut f = .fuelOut := rfl

@[simp] theorem PRes.bindTok_some {α β : Type} (a : α) (k : α → PRes β) :
    PRes.bindTok (some a) k = k a := rfl

@[simp] theorem PRes.bindTok_none {α β : Type} (k : α → PRes β) :
    PRes.bindTok (none : Option α) k = .panicked := rfl

theorem locate_var_ok {st st' : BState} {n : String} {t : Ty}
    (h : locate_var st n = .ok st' t) :
    st' = st ∧ lookupScopes st.scopes n = some t := by
  unfold locate_var at h
  cases hl : lookupScopes st.scopes n <;> simp [hl] at h
  exact ⟨h.1.symm, by rw [h.2]⟩

theorem locate_var_absent {st : BState} {n : String} {st' : BState}
    (h : locate_var st n = .absent st') :
    lookupScopes st.scopes n = none ∧
      st' = logError st .NameError
        ("Can't find a variable named " ++ n ++ " in the current scope") 0 0 := by
  unfold locate_var at h
  cases hl : lookupScopes st.scopes n <;> simp [hl] at h
  exact ⟨rfl, h.symm⟩

theorem locate_proc_ok {st st' : BState} {n : String} {p : IRProc}
    (h : locate_proc st n = .ok st' p) : st' = st := by
  unfold locate_proc at h
  cases hl : st.procs.find? (fun q => q.name = n) <;> simp [hl] at h
  exact h.1.symm

theorem inv_refl (st : BState) : Inv st st [] := by
  refine ⟨le_refl _, le_refl _, rfl, ?_, ?_⟩ <;> intro sp hsp <;> simp at hsp

theorem inv_append {st st1 st2 : BState} {r1 r2 : List (Span Instruction)}
    (h1 : Inv st st1 r1) (h2 : Inv st1 st2 r2) : Inv st st2 (r1 ++ r2) := by
  obtain ⟨l1, s1, c1, b1, d1⟩ := h1
  obtain ⟨l2, s2, c2, b2, d2⟩ := h2
  refine ⟨le_trans l1 l2, le_trans s1 s2, c2.trans c1, ?_, ?_⟩
  · intro sp hsp l hl
    rcases List.mem_append.1 hsp with h | h
    · exact ⟨(b1 sp h l hl).1, lt_of_lt_of_le (b1 sp h l hl).2 l2⟩
    · exact ⟨le_trans l1 (b2 sp h l hl).1, (b2 sp h l hl).2⟩
  · intro sp hsp nm hnm
    rcases List.mem_append.1 hsp with h | h
    · exact d1 sp h nm hnm
    · exact d2 sp h nm (by rw [c1]; exact hnm)

/-- An emitted instruction that is neither a `Label` nor a `Load` satisfies
the invariant on its own. -/
theorem inv_single {st : BState} (sp : Span Instruction)
    (hl : ∀ l, sp.contents.ins ≠ .Label l)
    (hd : ∀ nm, sp.contents.ins ≠ .Load nm) : Inv st st [sp] := by
  refine ⟨le_refl _, le_refl _, rfl, ?_, ?_⟩
  · intro x hx l h
    simp at hx
    subst hx
    exact absurd h (hl l)
  · intro x hx nm _
    simp at hx
    subst hx
    exact hd nm

/-- Only the relevant state fields matter to `Inv`. -/
theorem inv_of_fields {st st1 st2 : BState} {r : List (Span Instruction)}
    (h : Inv st st1 r)
    (hl : st1.available_label_id = st2.available_label_id)
    (hs : st1.scopes = st2.scopes)
    (hc : st1.consts = st2.consts) : Inv st st2 r := by
  obtain ⟨l1, s1, c1, b1, d1⟩ := h
  exact ⟨hl ▸ l1, hs ▸ s1, hc ▸ c1, fun sp hsp l h => ⟨(b1 sp hsp l h).1,
    hl ▸ (b1 sp hsp l h).2⟩, d1⟩

theorem Res.bind_eq_ok {α β : Type} {r : Res α} {f : BState → α → Res β}
    {st' : BState} {v : β} (h : r.bind f = .ok st' v) :
    ∃ st1 a, r = .ok st1 a ∧ f st1 a = .ok st' v := by
  cases r with
  | ok st a => exact ⟨st, a, rfl, h⟩
  | absent st => exact Res.noConfusion h
  | panicked => exact Res.noConfusion h
  | fuelOut => exact Res.noConfusion h

theorem lowerSeq_inv {node : NodeFn} (hn : GoodNode node) :
    ∀ (l : List (Span Node)) {st st' : BState} {res : List (Span Instruction)},
      lowerSeq node st l = .ok st' res → Inv st st' res := by
  intro l
  induction l with
  | nil =>
      intro st st' res h
      simp only [lowerSeq] at h
      obtain ⟨h1, h2⟩ := Res.ok.inj h
      subst h1; subst h2
      exact inv_refl st
  | cons n rest ih =>
      intro st st' res h
      simp only [lowerSeq] at h
      obtain ⟨st1, i1, h1, h⟩ := Res.bind_eq_ok h
      obtain ⟨st2, i2, h2, h⟩ := Res.bind_eq_ok h
      obtain ⟨h3, h4⟩ := Res.ok.inj h
      subst h3; subst h4
      exact inv_append (hn _ _ _ _ h1) (ih h2)

theorem lastIsReturn_append_pair (l1 : List (Span Instruction))
    (x y : Span Instruction) (hy : y.contents.ins ≠ .Return)
    (l2 : List (Span Instruction)) :
    lastIsReturn ((l1 ++ [x, y]) ++ l2) = lastIsReturn l2 := by
  cases l2 with
  | nil =>
      have hg : ((l1 ++ [x, y]) ++ ([] : List (Span Instruction))).getLast?
          = some y := by
        rw [List.append_nil, List.getLast?_append_cons]
        rfl
      simp [lastIsReturn, hg, hy]
  | cons z l2' => simp only [lastIsReturn, List.getLast?_append_cons]

theorem lastIsReturn_append_one (l1 : List (Span Instruction))
    (y : Span Instruction) (hy : y.contents.ins ≠ .Return)
    (l2 : List (Span Instruction)) :
    lastIsReturn ((l1 ++ [y]) ++ l2) = lastIsReturn l2 := by
  cases l2 with
  | nil =>
      have hg : ((l1 ++ [y]) ++ ([] : List (Span Instruction))).getLast?
          = some y := by
        rw [List.append_nil, List.getLast?_append_cons]
        rfl
      simp [lastIsReturn, hg, hy]
  | cons z l2' => simp only [lastIsReturn, List.getLast?_append_cons]

/-- The result of a successful `if_statement` lowering, in terms of the three
sub-lowerings: condition, `Branch`/`Label(body)`, body, a `Jump(end)` unless
the lowered body ends in `Return`, `Label(else)`, else body, the same `Jump`
rule, and `Label(end)` exactly unless both lowered branches end in `Return`. -/
theorem ifStatementF_eq {node : NodeFn} {st st1 st2 st3 : BState}
    {c b e : Span Node} {pos len : Nat} {ci bi ei : List (Span Instruction)}
    (hC : node { st with available_label_id := st.available_label_id + 3 } c
      = .ok st1 ci)
    (hB : node st1 b = .ok st2 bi)
    (hE : node st2 e = .ok st3 ei) :
    ifStatementF node st c b e pos len = .ok st3
      (((((((ci
        ++ [spanned ⟨.Branch st.available_label_id (st.available_label_id + 1),
              .NoReturn⟩ pos len,
            spanned ⟨.Label st.available_label_id, .Undefined⟩ pos len])
        ++ bi)
        ++ (if lastIsReturn bi then [] else
            [spanned ⟨.Jump (st.available_label_id + 2), .Undefined⟩ pos len]))
        ++ [spanned ⟨.Label (st.available_label_id + 1), .Undefined⟩ pos len])
        ++ ei)
        ++ (if lastIsReturn ei then [] else
            [spanned ⟨.Jump (st.available_label_id + 2), .Undefined⟩ pos len]))
        ++ (if lastIsReturn bi && lastIsReturn ei then [] else
            [spanned ⟨.Label (st.available_label_id + 2), .Undefined⟩ pos len])) := by
  simp only [ifStatementF]
  rw [hC]
  simp only [Res.bind_ok]
  rw [hB]
  simp only [Res.bind_ok]
  rw [lastIsReturn_append_pair _ _ _ (by simp [spanned]) bi]
  split
  · rename_i hgl
    rw [List.getLast?_eq_none_iff] at hgl
    simp at hgl
  · rw [hE]
    simp only [Res.bind_ok]
    rw [lastIsReturn_append_one _ _ (by simp [spanned]) ei]
    split
    · rename_i hgl2
      rw [List.getLast?_eq_none_iff] at hgl2
      simp at hgl2
    · rfl

/-- The result of a successful `while_statement` lowering: `Jump(cond)`,
`Label(cond)`, the lowered condition, `Branch(body, end)`, `Label(body)`,
the lowered body, `Jump(cond)` unless the lowered body ends in `Return`,
and `Label(end)`, with `cond`, `body`, `end` the three freshly allocated
ids in allocation order. -/
theorem whileStatementF_eq {node : NodeFn} {st st1 st2 : BState}
    {c b : Span Node} {pos len : Nat} {ci bi : List (Span Instruction)}
    (hC : node { st with available_label_id := st.available_label_id + 3 } c
      = .ok st1 ci)
    (hB : node st1 b = .ok st2 bi) :
    whileStatementF node st c b pos len = .ok st2
      ((((([spanned ⟨.Jump st.available_label_id, .Undefined⟩ pos len,
            spanned ⟨.Label st.available_label_id, .Undefined⟩ pos len]
        ++ ci)
        ++ [spanned ⟨.Branch (st.available_label_id + 1) (st.available_label_id + 2),
              .NoReturn⟩ pos len,
            spanned ⟨.Label (st.available_label_id + 1), .Undefined⟩ pos len])
        ++ bi)
        ++ (if lastIsReturn bi then [] else
            [spanned ⟨.Jump st.available_label_id, .Undefined⟩ pos len]))
        ++ [spanned ⟨.Label (st.available_label_id + 2), .Undefined⟩ pos len]) := by
  simp only [whileStatementF]
  rw [hC]
  simp only [Res.bind_ok]
  rw [hB]
  simp only [Res.bind_ok]
  rw [lastIsReturn_append_pair _ _ _ (by simp [spanned]) bi]
  split
  · rename_i hgl
    rw [List.getLast?_eq_none_iff] at hgl
    simp at hgl
  · rfl

theorem mem_of_mem_ite_nil {α : Type} {c : Prop} [Decidable c] {x : α}
    {l : List α} (h : x ∈ (if c then [] else l)) : x ∈ l := by
  split at h
  · simp at h
  · exact h

theorem ifStatementF_inv {node : NodeFn} (hn : GoodNode node) {st : BState}
    {c b e : Span Node} {pos len : Nat} {st' : BState}
    {res : List (Span Instruction)}
    (h : ifStatementF node st c b e pos len = .ok st' res) : Inv st st' res := by
  have h0 := h
  simp only [ifStatementF] at h
  obtain ⟨st1, ci, hC, h⟩ := Res.bind_eq_ok h
  obtain ⟨st2, bi, hB, h⟩ := Res.bind_eq_ok h
  split at h
  · exact Res.noConfusion h
  obtain ⟨st3, ei, hE, h⟩ := Res.bind_eq_ok h
  split at h
  · exact Res.noConfusion h
  rw [ifStatementF_eq hC hB hE] at h0
  obtain ⟨h1, h2⟩ := Res.ok.inj h0
  subst h1
  subst h2
  obtain ⟨c1l, c1s, c1c, c1b, c1d⟩ := hn _ _ _ _ hC
  obtain ⟨c2l, c2s, c2c, c2b, c2d⟩ := hn _ _ _ _ hB
  obtain ⟨c3l, c3s, c3c, c3b, c3d⟩ := hn _ _ _ _ hE
  simp only at c1l c1s c1c c1b c1d
  refine ⟨by omega, by exact le_trans c1s (le_trans c2s c3s), ?_, ?_, ?_⟩
  · rw [c3c, c2c, c1c]
  · intro sp hsp l hl
    simp only [List.mem_append] at hsp
    rcases hsp with ((((((hm | hm) | hm) | hm) | hm) | hm) | hm) | hm
    · have := c1b sp hm l hl
      constructor <;> omega
    · rcases List.mem_cons.1 hm with rfl | hm2
      · simp [spanned] at hl
      · simp at hm2
        subst hm2
        simp only [spanned] at hl
        obtain rfl := (InstructionType.Label.inj hl)
        constructor <;> omega
    · have := c2b sp hm l hl
      constructor <;> omega
    · have := mem_of_mem_ite_nil hm
      simp at this
      subst this
      simp [spanned] at hl
    · simp at hm
      subst hm
      simp only [spanned] at hl
      obtain rfl := (InstructionType.Label.inj hl)
      constructor <;> omega
    · have := c3b sp hm l hl
      constructor <;> omega
    · have := mem_of_mem_ite_nil hm
      simp at this
      subst this
      simp [spanned] at hl
    · have := mem_of_mem_ite_nil hm
      simp at this
      subst this
      simp only [spanned] at hl
      obtain rfl := (InstructionType.Label.inj hl)
      constructor <;> omega
  · intro sp hsp nm hnm
    simp only [List.mem_append] at hsp
    rcases hsp with ((((((hm | hm) | hm) | hm) | hm) | hm) | hm) | hm
    · exact c1d sp hm nm hnm
    · rcases List.mem_cons.1 hm with rfl | hm2
      · simp [spanned]
      · simp at hm2
        subst hm2
        simp [spanned]
    · refine c2d sp hm nm ?_
      rw [c1c]
      exact hnm
    · have := mem_of_mem_ite_nil hm
      simp at this
      subst this
      simp [spanned]
    · simp at hm
      subst hm
      simp [spanned]
    · refine c3d sp hm nm ?_
      rw [c2c, c1c]
      exact hnm
    · have := mem_of_mem_ite_nil hm
      simp at this
      subst this
      simp [spanned]
    · have := mem_of_mem_ite_nil hm
      simp at this
      subst this
      simp [spanned]

theorem whileStatementF_inv {node : NodeFn} (hn : GoodNode node) {st : BState}
    {c b : Span Node} {pos len : Nat} {st' : BState}
    {res : List (Span Instruction)}
    (h : whileStatementF node st c b pos len = .ok st' res) : Inv st st' res := by
  have h0 := h
  simp only [whileStatementF] at h
  obtain ⟨st1, ci, hC, h⟩ := Res.bind_eq_ok h
  obtain ⟨st2, bi, hB, h⟩ := Res.bind_eq_ok h
  split at h
  · exact Res.noConfusion h
  rw [whileStatementF_eq hC hB] at h0
  obtain ⟨h1, h2⟩ := Res.ok.inj h0
  subst h1
  subst h2
  obtain ⟨c1l, c1s, c1c, c1b, c1d⟩ := hn _ _ _ _ hC
  obtain ⟨c2l, c2s, c2c, c2b, c2d⟩ := hn _ _ _ _ hB
  simp only at c1l c1s c1c c1b c1d
  refine ⟨by omega, by exact le_trans c1s c2s, ?_, ?_, ?_⟩
  · rw [c2c, c1c]
  · intro sp hsp l hl
    simp only [List.mem_append] at hsp
    rcases hsp with ((((hm | hm) | hm) | hm) | hm) | hm
    · rcases List.mem_cons.1 hm with rfl | hm2
      · simp [spanned] at hl
      · simp at hm2
        subst hm2
        simp only [spanned] at hl
        obtain rfl := (InstructionType.Label.inj hl)
        constructor <;> omega
    · have := c1b sp hm l hl
      constructor <;> omega
    · rcases List.mem_cons.1 hm with rfl | hm2
      · simp [spanned] at hl
      · simp at hm2
        subst hm2
        simp only [spanned] at hl
        obtain rfl := (InstructionType.Label.inj hl)
        constructor <;> omega
    · have := c2b sp hm l hl
      constructor <;> omega
    · have := mem_of_mem_ite_nil hm
      simp at this
      subst this
      simp [spanned] at hl
    · simp at hm
      subst hm
      simp only [spanned] at hl
      obtain rfl := (InstructionType.Label.inj hl)
      constructor <;> omega
  · intro sp hsp nm hnm
    simp only [List.mem_append] at hsp
    rcases hsp with ((((hm | hm) | hm) | hm) | hm) | hm
    · rcases List.mem_cons.1 hm with rfl | hm2
      · simp [spanned]
      · simp at hm2
        subst hm2
        simp [spanned]
    · exact c1d sp hm nm hnm
    · rcases List.mem_cons.1 hm with rfl | hm2
      · simp [spanned]
      · simp at hm2
        subst hm2
        simp [spanned]
    · refine c2d sp hm nm ?_
      rw [c1c]
      exact hnm
    · have := mem_of_mem_ite_nil hm
      simp at this
      subst this
      simp [spanned]
    · simp at hm
      subst hm
      simp [spanned]

theorem inv_comp_left {st st0 st1 : BState} {r : List (Span Instruction)}
    (h0 : Inv st st0 []) (h1 : Inv st0 st1 r) : Inv st st1 r := by
  have h2 := inv_append h0 h1
  simpa using h2

theorem infixOpKind_not_label_load {op : String} {kind : InstructionType}
    (h : infixOpKind op = some kind) :
    (∀ l, kind ≠ .Label l) ∧ (∀ nm, kind ≠ .Load nm) := by
  unfold infixOpKind at h
  cases hf : infixOpTable.find? (fun kv => kv.1 == op) <;> rw [hf] at h
  · exact Option.noConfusion h
  · rename_i kv
    obtain rfl := Option.some.inj h
    have hkv := List.mem_of_find?_eq_some hf
    simp only [infixOpTable, List.mem_cons, List.not_mem_nil, or_false] at hkv
    rcases hkv with rfl|rfl|rfl|rfl|rfl|rfl|rfl|rfl|rfl|rfl|rfl|rfl|rfl|rfl <;>
      exact ⟨fun _ => by simp, fun _ => by simp⟩

theorem nodeDispatch_inv {node : NodeFn} (hn : GoodNode node) :
    GoodNode (nodeDispatch node) := by
  intro st sp st' res h
  cases hsp : sp.contents <;> simp only [nodeDispatch, hsp] at h
  case Literal typ value =>
    simp only [literalF] at h
    obtain ⟨h1, h2⟩ := Res.ok.inj h
    subst h1; subst h2
    exact inv_single _ (fun _ => by simp [spanned]) (fun _ => by simp [spanned])
  case Call name args =>
    simp only [callF] at h
    obtain ⟨stp, p, hp, h⟩ := Res.bind_eq_ok h
    obtain ⟨st2, argIns, hargs, h⟩ := Res.bind_eq_ok h
    obtain ⟨h1, h2⟩ := Res.ok.inj h
    subst h1; subst h2
    obtain rfl := locate_proc_ok hp
    exact inv_append (lowerSeq_inv hn _ hargs)
      (inv_single _ (fun _ => by simp [spanned]) (fun _ => by simp [spanned]))
  case InfixOp op left right =>
    simp only [infixOpF] at h
    obtain ⟨st1, li, hL, h⟩ := Res.bind_eq_ok h
    obtain ⟨st2, ri, hR, h⟩ := Res.bind_eq_ok h
    cases hk : infixOpKind op <;> rw [hk] at h
    · exact Res.noConfusion h
    · rename_i kind
      simp only [next_type_var] at h
      obtain ⟨h1, h2⟩ := Res.ok.inj h
      subst h1; subst h2
      obtain ⟨hkl, hkd⟩ := infixOpKind_not_label_load hk
      refine inv_of_fields (inv_append (inv_append (hn _ _ _ _ hL) (hn _ _ _ _ hR))
        (inv_single _ (fun l => by simp [spanned]; exact hkl l)
          (fun nm => by simp [spanned]; exact hkd nm))) rfl rfl rfl
  case PrefixOp op right =>
    simp only [prefixOpF] at h
    obtain ⟨st1, ri, hR, h⟩ := Res.bind_eq_ok h
    split_ifs at h <;>
      first
        | exact Res.noConfusion h
        | (simp only [next_type_var] at h
           obtain ⟨h1, h2⟩ := Res.ok.inj h
           subst h1; subst h2
           refine inv_of_fields (inv_append (hn _ _ _ _ hR)
             (inv_single _ (fun _ => by simp [spanned])
               (fun _ => by simp [spanned]))) rfl rfl rfl)
  case PostfixOp op left => exact Res.noConfusion h
  case IndexOp o i => exact Res.noConfusion h
  case VariableRef name =>
    simp only [variableRefF] at h
    split_ifs at h with hcc
    · cases hg : constsGet st.consts name <;> rw [hg] at h
      · exact Res.noConfusion h
      · exact hn _ _ _ _ h
    · obtain ⟨stv, t, hv, hv2⟩ := Res.bind_eq_ok h
      obtain ⟨rfl, hlk⟩ := locate_var_ok hv
      obtain ⟨h1, h2⟩ := Res.ok.inj hv2
      subst h1; subst h2
      refine ⟨le_refl _, le_refl _, rfl, ?_, ?_⟩
      · intro x hx l hl
        simp at hx
        subst hx
        simp [spanned] at hl
      · intro x hx nm hnm
        simp at hx
        subst hx
        simp only [spanned]
        intro heq
        obtain rfl := InstructionType.Load.inj heq
        exact hcc hnm
  case IfStatement c b e => exact ifStatementF_inv hn h
  case WhileStatement c b => exact whileStatementF_inv hn h
  case Block nodes => exact lowerSeq_inv hn _ h
  case VarStatement name typ value =>
    simp only [varStatementF] at h
    cases hsc : st.scopes <;> rw [hsc] at h
    · exact Res.noConfusion h
    · rename_i sc rest
      obtain ⟨st1, valIns, hV, h⟩ := Res.bind_eq_ok h
      obtain ⟨h1, h2⟩ := Res.ok.inj h
      subst h1; subst h2
      have I0 : Inv st { st with scopes := scopeInsert sc name typ :: rest } [] := by
        refine ⟨le_refl _, ?_, rfl, ?_, ?_⟩
        · simp [hsc]
        · intro x hx; simp at hx
        · intro x hx; simp at hx
      exact inv_append (inv_comp_left I0 (hn _ _ _ _ hV))
        (inv_single _ (fun _ => by simp [spanned]) (fun _ => by simp [spanned]))
  case ConstStatement name typ value => exact Res.noConfusion h
  case AssignStatement name value =>
    simp only [assignStatementF] at h
    obtain ⟨st1, valIns, hV, hrest⟩ := Res.bind_eq_ok h
    obtain ⟨st2, t, hvar, hv2⟩ := Res.bind_eq_ok hrest
    obtain ⟨rfl, hlk⟩ := locate_var_ok hvar
    obtain ⟨h1, h2⟩ := Res.ok.inj hv2
    subst h1; subst h2
    exact inv_append (hn _ _ _ _ hV)
      (inv_single _ (fun _ => by simp [spanned]) (fun _ => by simp [spanned]))
  case IndexedAssignStatement name i v => exact Res.noConfusion h
  case ProcStatement n a ts r b => exact Res.noConfusion h
  case ReturnStatement val =>
    simp only [returnStatementF] at h
    obtain ⟨st1, valIns, hV, h⟩ := Res.bind_eq_ok h
    cases hgl : valIns.getLast? <;> rw [hgl] at h
    · exact Res.noConfusion h
    · obtain ⟨h1, h2⟩ := Res.ok.inj h
      subst h1; subst h2
      exact inv_append (hn _ _ _ _ hV)
        (inv_single _ (fun _ => by simp [spanned]) (fun _ => by simp [spanned]))
  case UseStatement p => exact Res.noConfusion h

theorem nodeLower_inv : ∀ fuel, GoodNode (nodeLower fuel) := by
  intro fuel
  induction fuel with
  | zero => intro st sp st' res h; exact Res.noConfusion h
  | succ f ih => intro st sp st' res h; exact nodeDispatch_inv ih st sp st' res h

/-- C2: constraint generation for `Negate` pops one type and pushes nothing
back — the type stack shrinks by one — so on the IR of
`proc f(): i64 { return -3 }` the later `Return` pops an empty stack and the
`unwrap` panics.  (The claim and the spec's table say `Negate` pushes
`ins.typ` back for a net depth change of zero; the code omits the push, a
slip against the runtime semantics of `Negate` in src/llvm.rs, which pops
one value and pushes one.) -/
theorem C2_negate_pops_without_push :
    (∀ (st : BState) (cs : Constraints) (t : Ty) (stack : List Ty)
      (w : Bool) (typ : Ty) (pos len : Nat),
      genConstraintsAux negProc st cs (t :: stack)
          [spanned ⟨.Negate w, typ⟩ pos len] =
        .ok (add_constraint st cs t typ).1 ((add_constraint st cs t typ).2, stack)) ∧
    (gen_constraints { initState with scopes := [[]] } negProc).isPanicked = true ∧
    irGoThenAnalyzePanics negAst = true := by
  refine ⟨?_, rfl, rfl⟩
  intro st cs t stack w typ pos len
  rfl

/-- C4 counterexample: building `proc f() { 3 }` and running `analyze`
leaves the surviving `Push "3"` at type `IntLiteral` (the other lists are
the built-in `puts` stub and the epilogue's `Undefined`s) — no final pass
collapses literal-tag types to `i64`/`f64`; no such pass exists in the
code. -/
theorem C4_intliteral_survives_analyze :
    irGoThenAnalyzeTys c4LitAst = [[], [.IntLiteral, .Undefined, .Undefined]] := by
  rfl

/-- C4 amended: literal-tag types are rewritten only through the constraint
substitutions of the solving sweeps; for scenario S4,
`proc f(): i64 { return 3 }`, the `Return` constraint `IntLiteral ≡ i64`
rewrites `Push "3"` (and the `Return`) to `i64`. -/
theorem C4_s4_push_becomes_i64 :
    irGoThenAnalyzeTys s4Ast = [[], [.I64, .I64]] := by
  rfl

/-- C5 counterexample: with body `[Push "x" :: $0]` and constraints
`[$0 ≡ i32, $0 ≡ i64]`, the code's solver leaves the body at `i32`
(second sweep substitution still `$0 ≡ i64`, a no-op), although
`substitute_constraints` rewrites the remaining constraint to `i32 ≡ i64`,
whose application would leave `i64`: the substitutions applied to the body
are NOT taken from the rewritten list. -/
theorem C5_body_substitutions_from_original_list :
    ((solve_constraints c5Proc c5Constraints).body.map fun i => i.contents.typ)
        = [.I32] ∧
    substitute_constraints [(.Variable 0, .I64)] (.Variable 0) .I32
        = [(.I32, .I64)] ∧
    ((substitute_proc_body (substitute_proc_body c5Proc.body (.Variable 0) .I32)
        .I32 .I64).map fun i => i.contents.typ) = [.I64] := by
  exact ⟨rfl, rfl, rfl⟩

/-- C5 amended: `solve_constraints` maintains the rewritten list
(`new_constraints`) but never consults it — its output equals that of a
solver that drops the `substitute_constraints` step entirely and folds the
original constraint list over the body three times. -/
theorem C5_solver_ignores_rewritten_list (proc : IRProc) (cs : Constraints) :
    solve_constraints proc cs = solveOriginalOnly proc cs := by
  have h : ∀ (L : Constraints) (p : List (Span Instruction) × Constraints),
      (L.foldl (fun acc c => (substitute_proc_body acc.1 c.1 c.2,
          substitute_constraints acc.2 c.1 c.2)) p).1
        = L.foldl (fun b c => substitute_proc_body b c.1 c.2) p.1 := by
    intro L
    induction L with
    | nil => intro p; rfl
    | cons c rest ih => intro p; exact ih _
  simp only [solve_constraints, solveOriginalOnly, solveSweep]
  congr 1
  rw [h, h, h]

/-- C9: `//` has no infix binding power — `infix_binding_power` yields
`none` for it while `*` and `/` get `(7, 8)` — and parsing the statement
`a // b` panics (the assignment fallback consumes `a` and fails, and the
expression restart feeds `//` to `prefix_binding_power`, whose fall-through
arm is `unreachable!`), so no `InfixOp` node with operator `//` is ever
produced. -/
theorem C9_intdivide_has_no_binding_power :
    infix_binding_power "//" = none ∧
    infix_binding_power "*" = some (7, 8) ∧
    infix_binding_power "/" = some (7, 8) ∧
    (statementP 20 ⟨divToks, 0, 0, []⟩).isPanicked = true := by
  exact ⟨rfl, rfl, rfl, rfl⟩

/-- C7: a lowered while-statement is exactly `Jump(cond)`, `Label(cond)`,
the lowered condition, `Branch(body, end)`, `Label(body)`, the lowered body,
`Jump(cond)` — omitted exactly when the lowered body's last instruction is
`Return` — and finally `Label(end)`, where `cond`, `body`, `end` are the
three freshly allocated label ids in that allocation order. -/
theorem C7_while_lowering_shape (fuel : Nat) (st : BState) (c b : Span Node)
    (pos len : Nat) {st1 st2 : BState} {ci bi : List (Span Instruction)}
    (hC : nodeLower fuel { st with available_label_id := st.available_label_id + 3 } c
      = .ok st1 ci)
    (hB : nodeLower fuel st1 b = .ok st2 bi) :
    nodeLower (fuel + 1) st ⟨.WhileStatement c b, pos, len⟩ = .ok st2
      ((((([spanned ⟨.Jump st.available_label_id, .Undefined⟩ pos len,
            spanned ⟨.Label st.available_label_id, .Undefined⟩ pos len]
        ++ ci)
        ++ [spanned ⟨.Branch (st.available_label_id + 1) (st.available_label_id + 2),
              .NoReturn⟩ pos len,
            spanned ⟨.Label (st.available_label_id + 1), .Undefined⟩ pos len])
        ++ bi)
        ++ (if lastIsReturn bi then [] else
            [spanned ⟨.Jump st.available_label_id, .Undefined⟩ pos len]))
        ++ [spanned ⟨.Label (st.available_label_id + 2), .Undefined⟩ pos len]) :=
  whileStatementF_eq hC hB

/-- Witness for C7: `while true {}` lowered from a fresh builder emits
`Jump(0), Label(0), Push "true", Branch(1, 2), Label(1), Jump(0), Label(2)`. -/
theorem C7_while_lowering_shape_witness :
    nodeLower 6 initState
        ⟨.WhileStatement ⟨.Literal .Bool "true", 0, 0⟩ ⟨.Block [], 0, 0⟩, 3, 4⟩
      = .ok { initState with available_label_id := 3 }
        [spanned ⟨.Jump 0, .Undefined⟩ 3 4,
         spanned ⟨.Label 0, .Undefined⟩ 3 4,
         spanned ⟨.Push "true", .Bool⟩ 0 0,
         spanned ⟨.Branch 1 2, .NoReturn⟩ 3 4,
         spanned ⟨.Label 1, .Undefined⟩ 3 4,
         spanned ⟨.Jump 0, .Undefined⟩ 3 4,
         spanned ⟨.Label 2, .Undefined⟩ 3 4] :=
  C7_while_lowering_shape 5 initState ⟨.Literal .Bool "true", 0, 0⟩
    ⟨.Block [], 0, 0⟩ 3 4 rfl rfl

/-- C6: in a lowered if-statement the synthesised end label —
`Label(available_label_id + 2)` at entry — appears in the emitted sequence
exactly when at least one of the two lowered branches does not end in a
`Return` instruction; when both end in `Return`, no such `Label` occurs
anywhere in the result. -/
theorem C6_end_label_iff (fuel : Nat) (st : BState) (c b e : Span Node)
    (pos len : Nat) {st1 st2 st3 : BState}
    {ci bi ei : List (Span Instruction)}
    (hC : nodeLower fuel { st with available_label_id := st.available_label_id + 3 } c
      = .ok st1 ci)
    (hB : nodeLower fuel st1 b = .ok st2 bi)
    (hE : nodeLower fuel st2 e = .ok st3 ei) :
    ∃ res, nodeLower (fuel + 1) st ⟨.IfStatement c b e, pos, len⟩ = .ok st3 res ∧
      ((∃ sp ∈ res, sp.contents.ins = .Label (st.available_label_id + 2)) ↔
        ¬(lastIsReturn bi = true ∧ lastIsReturn ei = true)) := by
  refine ⟨_, ifStatementF_eq hC hB hE, ?_⟩
  obtain ⟨c1l, c1s, c1c, c1b, c1d⟩ := nodeLower_inv fuel _ _ _ _ hC
  obtain ⟨c2l, c2s, c2c, c2b, c2d⟩ := nodeLower_inv fuel _ _ _ _ hB
  obtain ⟨c3l, c3s, c3c, c3b, c3d⟩ := nodeLower_inv fuel _ _ _ _ hE
  simp only at c1l c1b
  constructor
  · rintro ⟨sp, hsp, hl⟩
    rintro ⟨hbr, her⟩
    simp only [hbr, her, Bool.and_self, if_true, List.append_nil,
      List.mem_append, List.mem_cons, List.not_mem_nil, or_false] at hsp
    rcases hsp with (((hm | rfl | rfl) | hm) | rfl) | hm
    · have h1 := c1b sp hm _ hl
      omega
    · simp [spanned] at hl
    · simp [spanned] at hl
    · have h2 := c2b sp hm _ hl
      omega
    · simp [spanned] at hl
    · have h3 := c3b sp hm _ hl
      omega
  · intro hnot
    have hcond : (lastIsReturn bi && lastIsReturn ei) = false := by
      cases hb1 : lastIsReturn bi <;> cases he1 : lastIsReturn ei <;> simp_all
    refine ⟨spanned ⟨.Label (st.available_label_id + 2), .Undefined⟩ pos len, ?_, rfl⟩
    rw [hcond]
    simp

/-- Witness for C6: `if true { return 1 } else {}` — the then-branch ends in
`Return`, the else-branch does not, so the end label `Label(2)` is present. -/
theorem C6_end_label_iff_witness :
    ∃ res, nodeLower 6 initState
        ⟨.IfStatement ⟨.Literal .Bool "true", 0, 0⟩
          ⟨.Block [⟨.ReturnStatement ⟨.Literal .IntLiteral "1", 0, 0⟩, 0, 0⟩], 0, 0⟩
          ⟨.Block [], 0, 0⟩, 1, 1⟩ = .ok { initState with available_label_id := 3 } res ∧
      ((∃ sp ∈ res, sp.contents.ins = .Label 2) ↔
        ¬(lastIsReturn [spanned ⟨.Push "1", .IntLiteral⟩ 0 0,
             spanned ⟨.Return, .IntLiteral⟩ 0 0] = true ∧
          lastIsReturn ([] : List (Span Instruction)) = true)) :=
  C6_end_label_iff 5 initState ⟨.Literal .Bool "true", 0, 0⟩
    ⟨.Block [⟨.ReturnStatement ⟨.Literal .IntLiteral "1", 0, 0⟩, 0, 0⟩], 0, 0⟩
    ⟨.Block [], 0, 0⟩ 1 1 rfl rfl rfl

/-- C3 amended: when lowering a `ProcStatement` with a block body, the
`Push "undefined"`/`Return` epilogue is appended exactly when the declared
return type is `Undefined` and the body block is non-empty — regardless of
whether the lowered body already ends in a `Return` instruction. -/
theorem C3_epilogue_iff_undefined_and_nonempty (node : NodeFn) (st : BState)
    (name : String) (args : List String) (arg_types : List Ty) (ret_type : Ty)
    (nodes : List (Span Node)) (bpos blen pos len : Nat) {sc : Scope}
    {st1 : BState} {ins : List (Span Instruction)}
    (hsc : insertParams [] args arg_types = some sc)
    (hlower : lowerSeq node { st with scopes := sc :: st.scopes } nodes
      = .ok st1 ins) :
    procStatementF node st name args arg_types ret_type
        ⟨.Block nodes, bpos, blen⟩ pos len
      = .ok st1 ⟨name, args, arg_types, ret_type,
          ins ++ (if ret_type = Ty.Undefined ∧ nodes.isEmpty = false then
            [spanned ⟨.Push "undefined", .Undefined⟩ pos len,
             spanned ⟨.Return, .Undefined⟩ pos len] else [])⟩ := by
  simp only [procStatementF, hsc]
  rw [hlower]
  simp only [Res.bind_ok]
  rcases eq_or_ne ret_type Ty.Undefined with rfl | hr
  · cases nodes with
    | nil => simp
    | cons n ns => simp
  · simp [hr]

/-- Witness for C3: a procedure with return type `i32` and body `return 1`
gets no epilogue. -/
theorem C3_epilogue_iff_undefined_and_nonempty_witness :
    procStatementF (nodeLower 5) initState "f" [] [] .I32
        ⟨.Block [⟨.ReturnStatement ⟨.Literal .IntLiteral "1", 0, 0⟩, 0, 0⟩], 0, 0⟩
        0 0
      = .ok { initState with scopes := [[]] } ⟨"f", [], [], .I32,
          ([spanned ⟨.Push "1", .IntLiteral⟩ 0 0,
            spanned ⟨.Return, .IntLiteral⟩ 0 0] ++
           (if Ty.I32 = Ty.Undefined ∧
              ([⟨Node.ReturnStatement ⟨.Literal .IntLiteral "1", 0, 0⟩, 0, 0⟩]
                : List (Span Node)).isEmpty = false then
            [spanned ⟨.Push "undefined", .Undefined⟩ 0 0,
             spanned ⟨.Return, .Undefined⟩ 0 0] else []))⟩ :=
  C3_epilogue_iff_undefined_and_nonempty (nodeLower 5) initState "f" [] [] .I32
    [⟨.ReturnStatement ⟨.Literal .IntLiteral "1", 0, 0⟩, 0, 0⟩] 0 0 0 0 rfl rfl

/-- C8: lowering `VariableRef{name}`: when `name` is in the constant table
the stored AST is lowered in its place and no `Load(name)` is ever emitted;
otherwise, when `name` resolves in scope to `t`, exactly one `Load(name)`
instruction typed `t` is emitted with no log record; otherwise one NameError
record is appended and the result is absent. -/
theorem C8_variable_ref_resolution (fuel : Nat) (st : BState) (name : String)
    (pos len : Nat) :
    (constsContains st.consts name = true →
      ∀ constant, constsGet st.consts name = some constant →
        nodeLower (fuel + 1) st ⟨.VariableRef name, pos, len⟩
          = nodeLower fuel st constant) ∧
    (constsContains st.consts name = true →
      ∀ st' res, nodeLower (fuel + 1) st ⟨.VariableRef name, pos, len⟩
          = .ok st' res →
        ∀ sp ∈ res, sp.contents.ins ≠ .Load name) ∧
    (constsContains st.consts name = false →
      ∀ t, lookupScopes st.scopes name = some t →
        nodeLower (fuel + 1) st ⟨.VariableRef name, pos, len⟩
          = .ok st [spanned ⟨.Load name, t⟩ pos len]) ∧
    (constsContains st.consts name = false →
      lookupScopes st.scopes name = none →
        nodeLower (fuel + 1) st ⟨.VariableRef name, pos, len⟩
          = .absent (logError st .NameError
              ("Can't find a variable named " ++ name ++ " in the current scope")
              0 0)) := by
  have hstep : nodeLower (fuel + 1) st ⟨.VariableRef name, pos, len⟩
      = variableRefF (nodeLower fuel) st name pos len := rfl
  refine ⟨?_, ?_, ?_, ?_⟩
  · intro hc constant hg
    rw [hstep]
    simp only [variableRefF, hc, if_true, hg]
  · intro hc st' res hok sp hsp
    cases hg : constsGet st.consts name with
    | none =>
        exfalso
        unfold constsContains at hc
        unfold constsGet at hg
        cases hf : st.consts.find? (fun kv => kv.1 = name) <;>
          rw [hf] at hc hg <;> simp_all
    | some constant =>
        rw [hstep] at hok
        simp only [variableRefF, hc, if_true, hg] at hok
        exact (nodeLower_inv fuel _ _ _ _ hok).2.2.2.2 sp hsp name hc
  · intro hcf t ht
    rw [hstep]
    simp only [variableRefF, hcf, Bool.false_eq_true, if_false, locate_var, ht,
      Res.bind_ok]
  · intro hcf hn
    rw [hstep]
    simp only [variableRefF, hcf, Bool.false_eq_true, if_false, locate_var, hn,
      Res.bind_absent]

theorem add_constraint_scopes (st : BState) (cs : Constraints) (t1 t2 : Ty) :
    (add_constraint st cs t1 t2).1.scopes = st.scopes := by
  unfold add_constraint next_type_var
  by_cases h1 : t1 = Ty.Unknown <;> by_cases h2 : t2 = Ty.Unknown <;>
    simp only [h1, h2, eq_self_iff_true, if_true, if_false, ite_true,
      ite_false] <;>
    (repeat' split) <;> rfl

theorem callPops_scopes {argc : Nat} {st : BState} {cs : Constraints}
    {stack : List Ty} {tys : List Ty} {st1 : BState}
    {out : Constraints × List Ty}
    (h : callPops argc st cs stack tys = .ok st1 out) : st1.scopes = st.scopes := by
  induction tys generalizing st cs stack with
  | nil =>
      simp only [callPops] at h
      obtain ⟨e1, _⟩ := Res.ok.inj h
      rw [← e1]
  | cons t ts ih =>
      simp only [callPops] at h
      cases hg : stack.get? (argc - 1) <;> rw [hg] at h
      · exact Res.noConfusion h
      · rw [ih h, add_constraint_scopes]

theorem genConstraintsAux_scopes_len {proc : IRProc} :
    ∀ {body : List (Span Instruction)} {st : BState} {cs : Constraints}
      {stack : List Ty} {st1 : BState} {out : Constraints × List Ty},
      genConstraintsAux proc st cs stack body = .ok st1 out →
      st1.scopes.length = st.scopes.length := by
  intro body
  induction body with
  | nil =>
      intro st cs stack st1 out h
      simp only [genConstraintsAux] at h
      obtain ⟨e1, _⟩ := Res.ok.inj h
      rw [← e1]
  | cons insSp rest ih =>
      intro st cs stack st1 out h
      simp only [genConstraintsAux] at h
      cases hi : insSp.contents.ins <;> rw [hi] at h
      case Push =>
        exact ih h
      case Load =>
        obtain ⟨stv, t, hv, h2⟩ := Res.bind_eq_ok h
        obtain ⟨rfl, _⟩ := locate_var_ok hv
        exact ih h2
      case Store =>
        cases stack with
        | nil => exact Res.noConfusion h
        | cons t stack' =>
            obtain ⟨stv, vt, hv, h2⟩ := Res.bind_eq_ok h
            have e1 := (locate_var_ok hv).1
            rw [ih h2, add_constraint_scopes, e1, add_constraint_scopes]
      case Allocate =>
        cases stack with
        | nil => exact Res.noConfusion h
        | cons ct stack' =>
            cases hsc : st.scopes with
            | nil => rw [hsc] at h; exact Res.noConfusion h
            | cons sc scRest =>
                rw [hsc] at h
                rw [ih h, add_constraint_scopes]
                simp [hsc]
      case Branch =>
        cases stack with
        | nil => exact Res.noConfusion h
        | cons t stack' => rw [ih h, add_constraint_scopes]
      case Jump => exact ih h
      case Label => exact ih h
      case Call =>
        obtain ⟨stp, p, hp, h2⟩ := Res.bind_eq_ok h
        obtain ⟨stc, cps, hcp, h3⟩ := Res.bind_eq_ok h2
        have e1 := locate_proc_ok hp
        rw [ih h3, callPops_scopes hcp, e1]
      case Return =>
        cases stack with
        | nil => exact Res.noConfusion h
        | cons t stack' => rw [ih h, add_constraint_scopes]
      case Negate =>
        cases stack with
        | nil => exact Res.noConfusion h
        | cons t stack' => rw [ih h, add_constraint_scopes]
      case Add =>
        cases stack with
        | nil => exact Res.noConfusion h
        | cons t1 stack' =>
            cases stack' with
            | nil => exact Res.noConfusion h
            | cons t2 stack'' =>
                rw [ih h, add_constraint_scopes, add_constraint_scopes,
                  add_constraint_scopes]
      case Subtract =>
        cases stack with
        | nil => exact Res.noConfusion h
        | cons t1 stack' =>
            cases stack' with
            | nil => exact Res.noConfusion h
            | cons t2 stack'' =>
                rw [ih h, add_constraint_scopes, add_constraint_scopes,
                  add_constraint_scopes]
      case Multiply =>
        cases stack with
        | nil => exact Res.noConfusion h
        | cons t1 stack' =>
            cases stack' with
            | nil => exact Res.noConfusion h
            | cons t2 stack'' =>
                rw [ih h, add_constraint_scopes, add_constraint_scopes,
                  add_constraint_scopes]
      case IntDivide =>
        cases stack with
        | nil => exact Res.noConfusion h
        | cons t1 stack' =>
            cases stack' with
            | nil => exact Res.noConfusion h
            | cons t2 stack'' =>
                rw [ih h, add_constraint_scopes, add_constraint_scopes,
                  add_constraint_scopes]
      case Divide =>
        cases stack with
        | nil => exact Res.noConfusion h
        | cons t1 stack' =>
            cases stack' with
            | nil => exact Res.noConfusion h
            | cons t2 stack'' =>
                rw [ih h, add_constraint_scopes, add_constraint_scopes,
                  add_constraint_scopes]
      case Compare =>
        cases stack with
        | nil => exact Res.noConfusion h
        | cons t1 stack' =>
            cases stack' with
            | nil => exact Res.noConfusion h
            | cons t2 stack'' =>
                rw [ih h, add_constraint_scopes, add_constraint_scopes]

theorem gen_constraints_scopes_len {st : BState} {proc : IRProc} {st1 : BState}
    {cs : Constraints} (h : gen_constraints st proc = .ok st1 cs) :
    st1.scopes.length = st.scopes.length := by
  unfold gen_constraints at h
  obtain ⟨st2, out, h2, h3⟩ := Res.bind_eq_ok h
  obtain ⟨e1, _⟩ := Res.ok.inj h3
  rw [← e1]
  exact genConstraintsAux_scopes_len h2

theorem analyzeLoop_scopes_len :
    ∀ {procs : List IRProc} {st st1 : BState} {ps : List IRProc},
      analyzeLoop st procs = .ok st1 ps →
      st1.scopes.length = st.scopes.length + procs.length := by
  intro procs
  induction procs with
  | nil =>
      intro st st1 ps h
      simp only [analyzeLoop] at h
      obtain ⟨e1, _⟩ := Res.ok.inj h
      rw [← e1]
      simp
  | cons p rest ih =>
      intro st st1 ps h
      simp only [analyzeLoop] at h
      cases hip : insertParamsByTypes [] p.args p.arg_types <;> rw [hip] at h
      · exact Res.noConfusion h
      · obtain ⟨stg, cs, hg, h2⟩ := Res.bind_eq_ok h
        obtain ⟨str, pr, hr, h3⟩ := Res.bind_eq_ok h2
        obtain ⟨e1, _⟩ := Res.ok.inj h3
        have e2 := gen_constraints_scopes_len hg
        have e3 := ih hr
        rw [← e1]
        simp only at e2
        simp [e3, e2]
        omega

/-- C10: scopes are never popped.  During IR building every successful
lowering step leaves the scope stack at least as deep as it found it; the
`analyze` loop pushes exactly one scope per procedure and pops none; and on
the two-procedure program `proc a(x: i32) {}; proc b() { return x }` the
reference to `x` inside `b` resolves — through the scope `a` left behind —
to `a`'s parameter of type `i32`, emitting `Load "x"` with no NameError
logged. -/
theorem C10_scopes_never_popped :
    (∀ fuel (st : BState) sp st' res, nodeLower fuel st sp = .ok st' res →
      st.scopes.length ≤ st'.scopes.length) ∧
    (∀ (st : BState) procs st' ps, analyzeLoop st procs = .ok st' ps →
      st'.scopes.length = st.scopes.length + procs.length) ∧
    (resBodyIns (irGo 20 leakAst initState) =
      [[], [], [.Load "x", .Return, .Push "undefined", .Return]] ∧
     resBodyTys (irGo 20 leakAst initState) =
      [[], [], [.I32, .I32, .Undefined, .Undefined]] ∧
     resLogLen (irGo 20 leakAst initState) = 0 ∧
     resScopesLen (irGo 20 leakAst initState) = 2) := by
  refine ⟨?_, ?_, rfl, rfl, rfl, rfl⟩
  · intro fuel st sp st' res h
    exact (nodeLower_inv fuel _ _ _ _ h).2.1
  · intro st procs st' ps h
    exact analyzeLoop_scopes_len h

/-- C1 amended (the true part): the failure paths the code detects append
exactly one record to the log and propagate absence — a `VariableRef` whose
name is neither a constant nor in scope appends one NameError and returns
`None`; a `Call` to an unknown procedure appends one NameError and returns
`None`; a const statement nested inside a body appends one SyntaxError and
returns `None`; and `Parser::expr` hitting EOF appends one SyntaxError and
returns `None`. -/
theorem C1_detected_failures_log_one_and_return_absent :
    (∀ (node : NodeFn) (st : BState) (name : String) (pos len : Nat),
      constsContains st.consts name = false →
      lookupScopes st.scopes name = none →
      variableRefF node st name pos len
        = .absent { st with log := st.log ++
            [⟨.NameError,
              "Can't find a variable named " ++ name ++ " in the current scope",
              0, 0⟩] }) ∧
    (∀ (node : NodeFn) (st : BState) (name : String) (args : List (Span Node))
      (pos len : Nat),
      st.procs.find? (fun p => p.name = name) = none →
      callF node st name args pos len
        = .absent { st with log := st.log ++
            [⟨.NameError,
              "Can't find a procedure named " ++ name ++ " in the current module",
              0, 0⟩] }) ∧
    (∀ (node : NodeFn) (st : BState) (name : String) (typ : Ty)
      (value : Span Node) (pos len : Nat),
      nodeDispatch node st ⟨.ConstStatement name typ value, pos, len⟩
        = .absent { st with log := st.log ++
            [⟨.SyntaxError,
              "Found const statement not at top level. This feature is NYI.",
              pos, len⟩] }) ∧
    (∀ (fuel : Nat) (st stNext : PState) (min_bp pos len : Nat),
      nextP st = some (⟨Token.EOF, pos, len⟩, stNext) →
      parseStep (fuel + 1) st (.expr min_bp)
        = .absent { stNext with log := stNext.log ++
            [⟨.SyntaxError, "Encountered the end of the file while parsing",
              pos, len⟩] }) := by
  refine ⟨?_, ?_, ?_, ?_⟩
  · intro node st name pos len h1 h2
    simp only [variableRefF, h1, Bool.false_eq_true, if_false, locate_var, h2,
      Res.bind_absent, logError]
  · intro node st name args pos len hfind
    simp only [callF, locate_proc, hfind, Res.bind_absent, logError]
  · intro node st name typ value pos len
    rfl
  · intro fuel st stNext min_bp pos len hnext
    simp only [parseStep, hnext, PRes.bindTok_some, pLog]

/-- C1 counterexample: `build_ir` (IRBuilder::go) panics — rather than
logging and returning absence — on a program whose procedure body contains
an index operation, because `IRBuilder::index_op` is `todo!()`. -/
theorem C1_index_operation_panics :
    (irGo 20 idxAst initState).isPanicked = true := by
  rfl

/-- C3 counterexample: lowering `proc f() { return undefined }` (declared
return type `Undefined`, body already ending in `Return`) appends the
`Push "undefined"`/`Return` epilogue anyway: the emitted body is
`Push, Return, Push, Return`, not left untouched. -/
theorem C3_epilogue_added_after_return :
    (match procStatementF (nodeLower 10) initState "f" [] [] .Undefined
        retBlock 1 2 with
     | .ok _ p => p.body.map fun i => i.contents.ins
     | _ => []) =
      [.Push "undefined", .Return, .Push "undefined", .Return] := by
  rfl

end Elgin
